import Mathlib

/-!
Verification of the background scheduling and notification subsystem of the
audiobook-tracker repository (`tracker/tasks.py`, `tracker/library.py`).

The Python code is shallowly embedded: every function under scrutiny is
translated into an executable Lean definition over explicit data types that
mirror the JSON-ish documents the code manipulates.  Database reads become
function parameters (a read-only snapshot of the collection), database writes
and notification sends become explicit components of a returned outcome
record, and the fallible upstream catalog client becomes an
`Option`/`Except`-valued input.  Machine reals: the scheduler's floating-point
offset accumulation is modelled with exact integer arithmetic (numerator over
a fixed denominator), which coincides with the Python value wherever the two
are both defined; datetimes are modelled as seconds/days in the proleptic
Gregorian calendar, exactly the arithmetic `datetime` performs.
-/

/-- Python scalar values as they occur in the relationship records handled by
`tracker/tasks.py` (`rel.get(...)` returns `None`, an `int` or a `str`).
Other Python types do not occur in these fields. -/
inductive PyVal where
  | none
  | int (n : ℤ)
  | str (s : String)
deriving DecidableEq, Repr

/-- Python truthiness for `PyVal` (`None` and `0` and `""` are falsy). -/
def PyVal.truthy : PyVal → Bool
  | .none => false
  | .int n => n ≠ 0
  | .str s => s ≠ ""

/-- Value of an all-digit character run, `none` otherwise. -/
def digitsVal (cs : List Char) : Option ℕ :=
  if cs ≠ [] ∧ cs.all Char.isDigit then
    some (cs.foldl (fun a c => a * 10 + (c.toNat - 48)) 0)
  else none

/-- Python `int(str)` in base 10: an optional sign followed by digits
(surrounding whitespace and digit-group underscores are not modelled; no
claim exercises them).  `none` models the raised `ValueError`. -/
def pyStrToInt : String → Option ℤ
  | s =>
    match s.data with
    | '-' :: rest => (digitsVal rest).map (fun n => -(n : ℤ))
    | '+' :: rest => (digitsVal rest).map (fun n => (n : ℤ))
    | cs => (digitsVal cs).map (fun n => (n : ℤ))

/-- Python `str.strip()` (whitespace trimmed from both ends). -/
def pyStrip (s : String) : String :=
  ((s.data.dropWhile Char.isWhitespace).reverse.dropWhile Char.isWhitespace).reverse.asString

/-- Python `str.lower()` (ASCII case mapping; the catalog data this code
handles is ASCII-cased). -/
def pyLower (s : String) : String := (s.data.map Char.toLower).asString

/-- Split a character list on a separator, keeping empty segments
(Python `str.split(sep)`). -/
def splitOnChar (sep : Char) (cs : List Char) : List (List Char) :=
  cs.foldr (fun c acc =>
    match acc with
    | h :: t => if c = sep then [] :: h :: t else (c :: h) :: t
    | [] => [[c]]) [[]]

/-- Python `str.split(sep)` on strings. -/
def pySplit (sep : Char) (s : String) : List String :=
  (splitOnChar sep s.data).map List.asString

/-- Python `int(x)` on the values reachable in `_relationships_equal`'s sort
key and in `_fetch_series_books_internal`'s `_sort_key`: an `int` is the
identity; a `str` is parsed in base 10; anything else raises.  The caller
catches the exception, so the failure continuation is passed in as `dflt`. -/
def pyToInt (dflt : ℤ) : PyVal → ℤ
  | .int n => n
  | .str s => (pyStrToInt s).getD dflt
  | .none => dflt

/-- Code-point comparison of strings, as Python's `str < str` (lexicographic
on Unicode code points).  Defined on the underlying character lists. -/
def strLtL : List Char → List Char → Bool
  | _, [] => false
  | [], _ :: _ => true
  | a :: as, b :: bs =>
      if a.toNat < b.toNat then true
      else if b.toNat < a.toNat then false
      else strLtL as bs

/-- String comparison wrapper. -/
def strLtB (a b : String) : Bool := strLtL a.data b.data

/-- Total comparison on `PyVal` used to order composite sort keys.  Python
compares `int < int` and `str < str` natively and raises `TypeError` on the
mixed cases; we extend those raising cases by the fixed constructor order
`none < int < str` so that the embedded sort is total.  All claims are settled
on homogeneous keys where the two semantics agree. -/
def pvLtB : PyVal → PyVal → Bool
  | .none, .none => false
  | .none, _ => true
  | .int _, .none => false
  | .int m, .int n => m < n
  | .int _, .str _ => true
  | .str _, .none => false
  | .str _, .int _ => false
  | .str s, .str t => strLtB s t

theorem strLtL_asymm : ∀ a b, strLtL a b = true → strLtL b a = false := by
  intro a
  induction a with
  | nil => intro b _; cases b <;> simp [strLtL]
  | cons x xs ih =>
      intro b h
      cases b with
      | nil => simp [strLtL] at h
      | cons y ys =>
          simp only [strLtL] at h ⊢
          by_cases h1 : x.toNat < y.toNat
          · have : ¬ y.toNat < x.toNat := Nat.lt_asymm h1
            simp [h1, this]
          · by_cases h2 : y.toNat < x.toNat
            · simp [h1, h2] at h
            · simp [h1, h2] at h ⊢
              exact ih ys h

theorem strLtL_trans : ∀ a b c, strLtL a b = true → strLtL b c = true →
    strLtL a c = true := by
  intro a
  induction a with
  | nil =>
      intro b c hab hbc
      cases c with
      | nil => cases b <;> simp [strLtL] at hab hbc
      | cons z zs => simp [strLtL]
  | cons x xs ih =>
      intro b c hab hbc
      cases b with
      | nil => simp [strLtL] at hab
      | cons y ys =>
          cases c with
          | nil => simp [strLtL] at hbc
          | cons z zs =>
              simp only [strLtL] at hab hbc ⊢
              by_cases h1 : x.toNat < y.toNat
              · by_cases h2 : y.toNat < z.toNat
                · simp [Nat.lt_trans h1 h2]
                · by_cases h3 : z.toNat < y.toNat
                  · simp [h2, h3] at hbc
                  · have hyz : y.toNat = z.toNat := Nat.le_antisymm
                      (Nat.le_of_not_lt h3) (Nat.le_of_not_lt h2)
                    simp [hyz ▸ h1]
              · by_cases h1' : y.toNat < x.toNat
                · simp [h1, h1'] at hab
                · have hxy : x.toNat = y.toNat := Nat.le_antisymm
                    (Nat.le_of_not_lt h1') (Nat.le_of_not_lt h1)
                  simp [h1, h1'] at hab
                  by_cases h2 : y.toNat < z.toNat
                  · simp [hxy ▸ h2]
                  · by_cases h3 : z.toNat < y.toNat
                    · simp [h2, h3] at hbc
                    · simp [h2, h3] at hbc
                      simp [hxy ▸ h2, hxy ▸ h3]
                      exact ih ys zs hab hbc

theorem strLtL_total_eq : ∀ a b, strLtL a b = false → strLtL b a = false →
    a = b := by
  intro a
  induction a with
  | nil => intro b h _; cases b <;> simp_all [strLtL]
  | cons x xs ih =>
      intro b hab hba
      cases b with
      | nil => simp [strLtL] at hba
      | cons y ys =>
          simp only [strLtL] at hab hba
          by_cases h1 : x.toNat < y.toNat
          · simp [h1] at hab
          · by_cases h2 : y.toNat < x.toNat
            · simp [h1, h2] at hba
            · have hxy : x.toNat = y.toNat := Nat.le_antisymm
                (Nat.le_of_not_lt h2) (Nat.le_of_not_lt h1)
              have hx : x = y := Char.eq_of_val_eq (by
                have := hxy
                simp [Char.toNat] at this
                exact UInt32.eq_of_val_eq (Fin.ext this))
              simp [h1, h2] at hab hba
              exact hx ▸ congrArg (x :: ·) (ih ys hab hba)

theorem pvLtB_asymm : ∀ a b, pvLtB a b = true → pvLtB b a = false := by
  intro a b h
  cases a <;> cases b <;> simp_all [pvLtB]
  · omega
  · exact strLtL_asymm _ _ h

theorem pvLtB_trans : ∀ a b c, pvLtB a b = true → pvLtB b c = true →
    pvLtB a c = true := by
  intro a b c hab hbc
  cases a <;> cases b <;> cases c <;> simp_all [pvLtB]
  · omega
  · exact strLtL_trans _ _ _ hab hbc

theorem pvLtB_total_eq : ∀ a b, pvLtB a b = false → pvLtB b a = false →
    a = b := by
  intro a b hab hba
  cases a <;> cases b <;> simp_all [pvLtB]
  · omega
  · exact String.ext (strLtL_total_eq _ _ hab hba)

/-- A relationship record as delivered by the catalog client
(`product.relationships[i]` in `tasks.py`).  The six named fields are the ones
`_relationships_equal` retains; `extra` models any further keys of the Python
dict, which normalization discards. -/
structure CatRel where
  asin : PyVal := .none
  relationship_to_product : PyVal := .none
  relationship_type : PyVal := .none
  sequence : PyVal := .none
  sort : PyVal := .none
  title : PyVal := .none
  extra : List (String × PyVal) := []
deriving DecidableEq, Repr

/-- The normalized record built inside `_relationships_equal.norm_list`: the
six retained fields verbatim (note: `sequence` and `sort` keep their raw
values; they are only coerced inside the sort key). -/
structure NormRel where
  asin : PyVal
  relationship_to_product : PyVal
  relationship_type : PyVal
  sequence : PyVal
  sort : PyVal
  title : PyVal
deriving DecidableEq, Repr

/-- Normalization of one relationship (`norm.append({...})` in
`_relationships_equal`). -/
def normRel (r : CatRel) : NormRel :=
  { asin := r.asin
    relationship_to_product := r.relationship_to_product
    relationship_type := r.relationship_type
    sequence := r.sequence
    sort := r.sort
    title := r.title }

/-- The composite sort key of `_relationships_equal.norm_list.key`: the tuple
`(relationship_to_product, relationship_type, asin, seq, title)` where `seq`
is `sequence or sort or 0` coerced with `int(...)`, falling back to `0` when
the coercion raises.  Represented as a list of `PyVal` compared
lexicographically, exactly Python tuple comparison. -/
def relKey (x : NormRel) : List PyVal :=
  let seq0 := if x.sequence.truthy then x.sequence
              else if x.sort.truthy then x.sort else .int 0
  [x.relationship_to_product, x.relationship_type, x.asin, .int (pyToInt 0 seq0), x.title]

/-- Lexicographic comparison of `PyVal` tuples (Python tuple `<`). -/
def pvListLtB : List PyVal → List PyVal → Bool
  | _, [] => false
  | [], _ :: _ => true
  | a :: as, b :: bs =>
      if pvLtB a b then true
      else if pvLtB b a then false
      else pvListLtB as bs

theorem pvListLtB_asymm : ∀ a b, pvListLtB a b = true → pvListLtB b a = false := by
  intro a
  induction a with
  | nil => intro b _; cases b <;> simp [pvListLtB]
  | cons x xs ih =>
      intro b h
      cases b with
      | nil => simp [pvListLtB] at h
      | cons y ys =>
          simp only [pvListLtB] at h ⊢
          by_cases h1 : pvLtB x y = true
          · simp [h1, pvLtB_asymm _ _ h1]
          · by_cases h2 : pvLtB y x = true
            · simp [h1, h2] at h
            · simp [h1, h2] at h ⊢
              exact ih ys h

theorem pvListLtB_trans : ∀ a b c, pvListLtB a b = true → pvListLtB b c = true →
    pvListLtB a c = true := by
  intro a
  induction a with
  | nil =>
      intro b c hab hbc
      cases c with
      | nil => cases b <;> simp [pvListLtB] at hab hbc
      | cons z zs => simp [pvListLtB]
  | cons x xs ih =>
      intro b c hab hbc
      cases b with
      | nil => simp [pvListLtB] at hab
      | cons y ys =>
          cases c with
          | nil => simp [pvListLtB] at hbc
          | cons z zs =>
              simp only [pvListLtB] at hab hbc ⊢
              by_cases h1 : pvLtB x y = true
              · by_cases h2 : pvLtB y z = true
                · simp [pvLtB_trans _ _ _ h1 h2]
                · by_cases h3 : pvLtB z y = true
                  · simp [h2, h3] at hbc
                  · have hyz : y = z := pvLtB_total_eq _ _
                      (Bool.eq_false_iff.mpr h2) (Bool.eq_false_iff.mpr h3)
                    simp [hyz ▸ h1]
              · by_cases h1' : pvLtB y x = true
                · simp [h1, h1'] at hab
                · have hxy : x = y := pvLtB_total_eq _ _
                    (Bool.eq_false_iff.mpr h1) (Bool.eq_false_iff.mpr h1')
                  simp [h1, h1'] at hab
                  by_cases h2 : pvLtB y z = true
                  · simp [hxy ▸ h2]
                  · by_cases h3 : pvLtB z y = true
                    · simp [h2, h3] at hbc
                    · simp [h2, h3] at hbc
                      subst hxy
                      simp [h2, h3]
                      exact ih ys zs hab hbc

theorem pvListLtB_total_eq : ∀ a b, pvListLtB a b = false → pvListLtB b a = false →
    a = b := by
  intro a
  induction a with
  | nil => intro b h _; cases b <;> simp_all [pvListLtB]
  | cons x xs ih =>
      intro b hab hba
      cases b with
      | nil => simp [pvListLtB] at hba
      | cons y ys =>
          simp only [pvListLtB] at hab hba
          by_cases h1 : pvLtB x y = true
          · simp [h1] at hab
          · by_cases h2 : pvLtB y x = true
            · simp [h1, h2] at hba
            · have hxy : x = y := pvLtB_total_eq _ _
                (Bool.eq_false_iff.mpr h1) (Bool.eq_false_iff.mpr h2)
              simp [h1, h2] at hab hba
              exact hxy ▸ congrArg (x :: ·) (ih ys hab hba)

/-- Strict key comparison on normalized relationships. -/
def relLtB (a b : NormRel) : Bool := pvListLtB (relKey a) (relKey b)

/-- Stable insertion into a sorted list, placing the new element after every
element it does not strictly precede.  Together with `pySortedBy` this models
Python's stable `sorted(..., key=...)`. -/
def pyInsert (lt : α → α → Bool) (x : α) : List α → List α
  | [] => [x]
  | y :: ys => if lt x y then x :: y :: ys else y :: pyInsert lt x ys

/-- Python's stable `sorted(l, key=...)`: elements are inserted in their
original order, each landing after existing elements with an equal key. -/
def pySortedBy (lt : α → α → Bool) (l : List α) : List α :=
  l.foldl (fun acc y => pyInsert lt y acc) []

/-- The list-valued part of `_relationships_equal.norm_list`: drop non-dict
entries (not representable here, every `CatRel` is a dict), normalize, and sort
by the composite key.  A non-list input normalizes to `[]`. -/
def normList : Option (List CatRel) → List NormRel
  | Option.none => []
  | Option.some l => pySortedBy relLtB (l.map normRel)

/-- `_relationships_equal(a, b)` from `tracker/tasks.py`: compare the
normalized, key-sorted relationship lists for equality. -/
def relationshipsEqual (a b : Option (List CatRel)) : Bool :=
  normList a = normList b

/-- Permutation fact: stable insertion only repositions the new element. -/
theorem pyInsert_perm (lt : α → α → Bool) (x : α) :
    ∀ l : List α, (pyInsert lt x l).Perm (x :: l) := by
  intro l
  induction l with
  | nil => simp [pyInsert]
  | cons y ys ih =>
      simp only [pyInsert]
      by_cases h : lt x y = true
      · simp [h]
      · simp [h]
        exact (ih.cons y).trans (List.Perm.swap x y ys)

/-- Auxiliary: folding stable insertion over a list permutes `acc ++ l`. -/
theorem pySortedBy_foldl_perm (lt : α → α → Bool) :
    ∀ (l acc : List α), (l.foldl (fun acc y => pyInsert lt y acc) acc).Perm (acc ++ l) := by
  intro l
  induction l with
  | nil => intro acc; simp
  | cons y ys ih =>
      intro acc
      simp only [List.foldl_cons]
      refine (ih (pyInsert lt y acc)).trans ?_
      refine (List.Perm.append_right ys (pyInsert_perm lt y acc)).trans ?_
      simpa using (@List.perm_middle _ y acc ys).symm

/-- The embedded `sorted` is a permutation of its input. -/
theorem pySortedBy_perm (lt : α → α → Bool) (l : List α) :
    (pySortedBy lt l).Perm l := by
  simpa [pySortedBy] using pySortedBy_foldl_perm lt l []

/-- Membership in a stable insertion. -/
theorem mem_pyInsert (lt : α → α → Bool) (x : α) (l : List α) (z : α) :
    z ∈ pyInsert lt x l ↔ z = x ∨ z ∈ l := by
  constructor
  · intro h
    have := (pyInsert_perm lt x l).mem_iff.mp h
    simpa using this
  · intro h
    refine (pyInsert_perm lt x l).mem_iff.mpr ?_
    simpa using h

/-- Stable insertion preserves being sorted with respect to the reflexive
closure of the comparison (`lt b a = false` meaning `a ≤ b`). -/
theorem pyInsert_pairwise (lt : α → α → Bool)
    (htrans : ∀ a b c, lt a b = true → lt b c = true → lt a c = true)
    (hasymm : ∀ a b, lt a b = true → lt b a = false)
    (x : α) (l : List α)
    (hl : l.Pairwise (fun a b => lt b a = false)) :
    (pyInsert lt x l).Pairwise (fun a b => lt b a = false) := by
  induction l with
  | nil => simp [pyInsert]
  | cons y ys ih =>
      rcases List.pairwise_cons.mp hl with ⟨hy, hys⟩
      simp only [pyInsert]
      by_cases h : lt x y = true
      · simp only [h, if_true]
        refine List.pairwise_cons.mpr ⟨?_, hl⟩
        intro z hz
        rcases hz with _ | hz
        · exact hasymm _ _ h
        · rename_i hz
          have hyz := hy z hz
          cases hzx : lt z x with
          | false => rfl
          | true =>
            have := htrans _ _ _ hzx h
            rw [this] at hyz
            exact absurd hyz (by simp)
      · simp only [h, if_false]
        refine List.pairwise_cons.mpr ⟨?_, ih hys⟩
        intro z hz
        rcases (mem_pyInsert lt x ys z).mp hz with hz | hz
        · subst hz
          exact Bool.eq_false_iff.mpr h
        · exact hy z hz

/-- The embedded `sorted` output is sorted (weakly, by the key order). -/
theorem pySortedBy_pairwise (lt : α → α → Bool)
    (htrans : ∀ a b c, lt a b = true → lt b c = true → lt a c = true)
    (hasymm : ∀ a b, lt a b = true → lt b a = false)
    (l : List α) :
    (pySortedBy lt l).Pairwise (fun a b => lt b a = false) := by
  suffices h : ∀ (l acc : List α), acc.Pairwise (fun a b => lt b a = false) →
      (l.foldl (fun acc y => pyInsert lt y acc) acc).Pairwise (fun a b => lt b a = false) by
    exact h l [] (by simp)
  intro l
  induction l with
  | nil => intro acc h; simpa using h
  | cons y ys ih =>
      intro acc hacc
      simp only [List.foldl_cons]
      exact ih _ (pyInsert_pairwise lt htrans hasymm y acc hacc)

/-- Leap-year rule of the proleptic Gregorian calendar (`datetime`). -/
def isLeapYear (y : ℕ) : Bool := (y % 4 = 0 && y % 100 ≠ 0) || y % 400 = 0

/-- Length of a month, as validated by `datetime(y, m, d)`. -/
def daysInMonth (y m : ℕ) : ℕ :=
  if m = 2 then (if isLeapYear y then 29 else 28)
  else if m = 4 ∨ m = 6 ∨ m = 9 ∨ m = 11 then 30 else 31

/-- Parse a `YYYY-MM-DD` character sequence with `datetime`'s validation.
`datetime.fromisoformat` accepts exactly this shape for a date-only string
(we model the documented pre-3.11 grammar). -/
def parseYmd : List Char → Option (ℕ × ℕ × ℕ)
  | [y1, y2, y3, y4, '-', m1, m2, '-', d1, d2] =>
      if (y1.isDigit && y2.isDigit && y3.isDigit && y4.isDigit &&
          m1.isDigit && m2.isDigit && d1.isDigit && d2.isDigit) then
        let y := ((y1.toNat - 48) * 1000 + (y2.toNat - 48) * 100 +
                  (y3.toNat - 48) * 10 + (y4.toNat - 48))
        let m := (m1.toNat - 48) * 10 + (m2.toNat - 48)
        let d := (d1.toNat - 48) * 10 + (d2.toNat - 48)
        if 1 ≤ y ∧ 1 ≤ m ∧ m ≤ 12 ∧ 1 ≤ d ∧ d ≤ daysInMonth y m then
          some (y, m, d)
        else none
      else none
  | _ => none

/-- The date parser shared by `_deduplicate_books_by_title._parse_date`,
`set_series_books._parse_date_str` and `compute_narrator_warnings._release_dt`
(all three are the same code): `datetime.fromisoformat(ds.split("T")[0])`,
with any failure swallowed to `None`.  The date is encoded as the natural
number `y * 10000 + m * 100 + d`, whose order coincides with `datetime`
order for valid dates. -/
def parseDateKey : Option String → Option ℕ
  | Option.none => none
  | Option.some s =>
      if s = "" then none
      else match parseYmd (s.data.takeWhile (· ≠ 'T')) with
        | some (y, m, d) => some (y * 10000 + m * 100 + d)
        | none => none

/-- Comparison of optional dates where `none` stands for `datetime.max`
(the `or datetime.max` fallback in the two sort keys). -/
def dateNoneTopLt : Option ℕ → Option ℕ → Bool
  | _, Option.none => false
  | Option.none, Option.some _ => false
  | Option.some d, Option.some e => d < e

/-- One entry of a book's `series` relationship list
(`{"asin": ..., "sequence": ...}` as attached by
`_fetch_series_books_internal`). -/
structure SeriesRef where
  asin : Option String := none
  sequence : PyVal := .none
deriving DecidableEq, Repr

/-- The narrator payload of a book: the catalog delivers a list of
`{"name": ...}` dicts or plain strings; summarized books store a joined
string (`_book_summary`). -/
inductive Narrators where
  | s (v : String)
  | lst (items : List (Option String))
deriving DecidableEq, Repr

/-- A book document as stored in a Series' `books` array (and as produced by
`_book_summary`).  Every field models the correspondingly named dict key;
an `Option` value of `none` models a missing key or a `None` value.  `raw` is
the stored raw child product, of which only `publication_datetime` is ever
consulted (`_book_raw_publication_datetime`), so only that key is carried. -/
structure Book where
  title : Option String := none
  asin : Option String := none
  release_date : Option String := none
  publication_datetime : Option String := none
  hidden : Option Bool := none
  ignore_narrator_warning : Option Bool := none
  ignore_set_by_series : Bool := false
  image : Option String := none
  image_url : Option String := none
  narrators : Option Narrators := none
  series : List SeriesRef := []
  rawPubDatetime : Option String := none
deriving DecidableEq, Repr

/-- `is_book_hidden` from `tracker/library.py`: `bool(book.get("hidden"))`. -/
def isBookHidden (b : Book) : Bool := b.hidden.getD false

/-- `_get_primary_narrator` from `tracker/library.py`. -/
def getPrimaryNarrator : Option Narrators → Option String
  | Option.none => none
  | Option.some (.lst []) => none
  | Option.some (.lst (first :: _)) =>
      match first with
      | Option.some name => if pyStrip name = "" then none else some (pyStrip name)
      | Option.none => none
  | Option.some (.s v) =>
      match (pySplit ',' v).map pyStrip |>.filter (· ≠ "") with
      | [] => none
      | p :: _ => some p

/-- `_book_sequence` from `tracker/library.py`: the declared sequence of this
book inside `series_asin`, with `999` for missing/unparseable. -/
def bookSequence (b : Book) (seriesAsin : Option String) : ℤ :=
  match b.series.find? (fun e => e.asin = seriesAsin) with
  | some e => pyToInt 999 e.sequence
  | none => 999

/-- The composite sort key `(sequence, release-date-or-max)` shared by
`compute_narrator_warnings` and the final sort of `set_series_books`. -/
def bookOrderLt (seriesAsin : Option String) (a b : Book) : Bool :=
  let ka := bookSequence a seriesAsin
  let kb := bookSequence b seriesAsin
  ka < kb || (ka = kb && dateNoneTopLt (parseDateKey a.release_date) (parseDateKey b.release_date))

/-- `compute_narrator_warnings` from `tracker/library.py`: titles of the books
whose primary narrator differs from the first (by sequence/date) book's. -/
def computeNarratorWarnings (books : List Book) (seriesAsin : Option String) : List String :=
  match pySortedBy (bookOrderLt seriesAsin) books with
  | [] => []
  | first :: rest =>
      match getPrimaryNarrator first.narrators with
      | Option.none => []
      | Option.some primary =>
          (rest.filter (fun b => !(b.ignore_narrator_warning.getD false) &&
              getPrimaryNarrator b.narrators ≠ some primary)).map
            (fun b => b.title.getD "Unknown")

/-- The normalized grouping title of `_deduplicate_books_by_title`:
`book.get("title", "").lower() if book.get("title") else ""`. -/
def normTitleOf (b : Book) : String :=
  match b.title with
  | Option.some t => if t = "" then "" else pyLower t
  | Option.none => ""

/-- Release-date key used when resolving duplicate titles: `none` (no
parseable date) sorts below every real date, matching the Python key
`(rd is not None, rd or datetime.min)`. -/
def dateNoneBotLt : Option ℕ → Option ℕ → Bool
  | Option.none, Option.some _ => true
  | Option.some d, Option.some e => d < e
  | _, Option.none => false

/-- Resolution of a duplicate-title group: the stable descending sort keeps
the first book achieving the maximal release-date key
(`group.sort(key=_sort_key, reverse=True); group[0]`). -/
def pickNewer (best b : Book) : Book :=
  if dateNoneBotLt (parseDateKey best.release_date) (parseDateKey b.release_date) then b else best

/-- The distinct non-empty normalized titles in first-occurrence order — the
key order of the `books_by_title` dict. -/
def groupTitles (books : List Book) : List String :=
  books.foldl (fun acc b =>
    let t := normTitleOf b
    if t = "" ∨ t ∈ acc then acc else acc ++ [t]) []

/-- The member kept for one title group (`deduped.append(...)`). -/
def keptForTitle (books : List Book) (t : String) : Option Book :=
  match books.filter (fun b => normTitleOf b = t) with
  | [] => none
  | h :: rest => some (rest.foldl pickNewer h)

/-- `_deduplicate_books_by_title` from `tracker/library.py`. -/
def deduplicateBooksByTitle (books : List Book) : List Book :=
  (groupTitles books).filterMap (keptForTitle books)

/-- `_book_identity` from `tracker/library.py`. -/
def bookIdentity (b : Book) : Option String :=
  match b.asin with
  | Option.some a =>
      if a ≠ "" then some ("asin:" ++ a)
      else match b.title with
        | Option.some t => if pyStrip t = "" then none else some ("title:" ++ pyLower (pyStrip t))
        | Option.none => none
  | Option.none =>
      match b.title with
      | Option.some t => if pyStrip t = "" then none else some ("title:" ++ pyLower (pyStrip t))
      | Option.none => none

/-- The `existing_map` of `set_series_books`: first occurrence per identity. -/
def firstByIdentity (books : List Book) : List (String × Book) :=
  books.foldl (fun m b =>
    match bookIdentity b with
    | some k => if m.any (·.1 = k) then m else m ++ [(k, b)]
    | none => m) []

/-- The per-book flag processing loop of `set_series_books` (hidden and
narrator-ignore flags inherited from the existing entry unless explicitly
provided; the series-level ignore toggle overrides). -/
def processBook (existingMap : List (String × Book)) (seriesIgnore : Bool) (b : Book) : Book :=
  let existing : Option Book :=
    (bookIdentity b).bind (fun k => ((existingMap.find? (·.1 = k)).map (·.2)))
  let bookHidden := match b.hidden with
    | some v => v
    | none => (existing.bind (·.hidden)).getD false
  let ignore0 := match b.ignore_narrator_warning with
    | some v => v
    | none => (existing.bind (·.ignore_narrator_warning)).getD false
  { b with hidden := some bookHidden
           ignore_narrator_warning := some (if seriesIgnore then true else ignore0)
           ignore_set_by_series := if seriesIgnore then true else b.ignore_set_by_series }

/-- The pure core of `set_series_books` from `tracker/library.py`: dedup by
title, inherit flags from the existing stored list, and sort by
sequence/date.  The document writes persist exactly the returned list as the
series' `books`; `existingBooks` and `seriesIgnore` are the two reads the
function performs on the store. -/
def setSeriesBooks (existingBooks : List Book) (seriesIgnore : Bool)
    (asin : String) (books : List Book) : List Book :=
  let books1 := deduplicateBooksByTitle books
  let em := firstByIdentity existingBooks
  let processed := books1.map (processBook em seriesIgnore)
  pySortedBy (bookOrderLt (some asin)) processed

/-- Days since 1970-01-01 of a proleptic-Gregorian civil date (the arithmetic
`datetime.date` performs; Hinnant's civil-from-days algorithm). -/
def daysFromCivil (y m d : ℕ) : ℤ :=
  let y' := if m ≤ 2 then y - 1 else y
  let era := y' / 400
  let yoe := y' % 400
  let mp := (m + 9) % 12
  let doy := (153 * mp + 2) / 5 + d - 1
  let doe := yoe * 365 + yoe / 4 - yoe / 100 + doy
  (era : ℤ) * 146097 + (doe : ℤ) - 719468

/-- Inverse of `daysFromCivil` (used only to render `isoformat` strings). -/
def civilFromDays (z : ℤ) : ℤ × ℕ × ℕ :=
  let z' := z + 719468
  let era := Int.fdiv z' 146097
  let doe := (z' - era * 146097).toNat
  let yoe := (doe - doe / 1460 + doe / 36524 - doe / 146096) / 365
  let doy := doe - (365 * yoe + yoe / 4 - yoe / 100)
  let mp := (5 * doy + 2) / 153
  let d := doy - (153 * mp + 2) / 5 + 1
  let m := if mp < 10 then mp + 3 else mp - 9
  ((if m ≤ 2 then era * 400 + yoe + 1 else era * 400 + yoe), m, d)

/-- A parsed `datetime`: naive wall-clock epoch seconds plus the UTC offset
in seconds when the string carried one (tz-aware). -/
structure PyDateTime where
  secs : ℤ
  offset : Option ℤ
deriving DecidableEq, Repr

/-- Parse `HH:MM[:SS]` with `datetime`'s range validation, returning elapsed
seconds and the unconsumed remainder.  Fractional seconds are not modelled
(no claim exercises them). -/
def parseHms : List Char → Option (ℕ × List Char)
  | h1 :: h2 :: ':' :: m1 :: m2 :: rest =>
      if h1.isDigit && h2.isDigit && m1.isDigit && m2.isDigit then
        let hh := (h1.toNat - 48) * 10 + (h2.toNat - 48)
        let mm := (m1.toNat - 48) * 10 + (m2.toNat - 48)
        if hh ≤ 23 ∧ mm ≤ 59 then
          match rest with
          | ':' :: s1 :: s2 :: rest2 =>
              if s1.isDigit && s2.isDigit then
                let ss := (s1.toNat - 48) * 10 + (s2.toNat - 48)
                if ss ≤ 59 then some (hh * 3600 + mm * 60 + ss, rest2) else none
              else none
          | _ => some (hh * 3600 + mm * 60, rest)
        else none
      else none
  | _ => none

/-- Parse the optional `±HH:MM` trailing offset of an ISO datetime. -/
def parseTzOffset : List Char → Option (Option ℤ)
  | [] => some none
  | '+' :: rest => (parseHms rest).bind fun (s, r) => if r = [] then some (some (s : ℤ)) else none
  | '-' :: rest => (parseHms rest).bind fun (s, r) => if r = [] then some (some (-(s : ℤ))) else none
  | _ => none

/-- `datetime.fromisoformat` on the pre-3.11 grammar
`YYYY-MM-DD[*HH:MM[:SS][±HH:MM]]` (the separator may be any character).  The
result is wall-clock epoch seconds plus the parsed offset, if any. -/
def fromIsoFormat (cs : List Char) : Option PyDateTime :=
  match parseYmd (cs.take 10) with
  | Option.none => none
  | Option.some (y, m, d) =>
      let base := daysFromCivil y m d * 86400
      match cs.drop 10 with
      | [] => some ⟨base, none⟩
      | _sep :: rest =>
          match parseHms rest with
          | Option.none => none
          | Option.some (t, rest2) =>
              match parseTzOffset rest2 with
              | Option.none => none
              | Option.some off => some ⟨base + (t : ℤ), off⟩

/-- `_parse_iso_datetime` from `tracker/tasks.py`: rewrite a trailing `Z` to
`+00:00`, then `fromisoformat`, with every failure swallowed to `None`. -/
def parseIsoDatetime : Option String → Option PyDateTime
  | Option.none => none
  | Option.some v =>
      if v = "" then none
      else
        let cs := if v.data.getLast? = some 'Z' then v.data.dropLast ++ "+00:00".data else v.data
        fromIsoFormat cs

/-- `_publication_datetime_utc` from `tracker/tasks.py`, as naive-UTC epoch
seconds: prefer the top-level `publication_datetime`, fall back to the raw
snapshot's `publication_datetime`, convert tz-aware values to UTC, and fall
back to `release_date` at midnight. -/
def publicationDatetimeUtc (b : Book) : Option ℤ :=
  let rawPub : Option String :=
    match b.publication_datetime with
    | Option.some s => if s = "" then b.rawPubDatetime else some s
    | Option.none => b.rawPubDatetime
  let parsed : Option PyDateTime :=
    match rawPub with
    | Option.some s => if s = "" then none else parseIsoDatetime (some s)
    | Option.none => none
  match parsed with
  | Option.some dt =>
      some (match dt.offset with
            | Option.some off => dt.secs - off
            | Option.none => dt.secs)
  | Option.none =>
      match b.release_date with
      | Option.some rd =>
          if rd = "" then none
          else
            match ((splitOnChar '-' (rd.data.take 10)).map List.asString).map pyStrToInt with
            | [some y, some m, some d] =>
                if 1 ≤ y ∧ y ≤ 9999 ∧ 1 ≤ m ∧ m ≤ 12 ∧ 1 ≤ d ∧ d ≤ daysInMonth y.toNat m.toNat then
                  some (daysFromCivil y.toNat m.toNat d.toNat * 86400)
                else none
            | _ => none
      | Option.none => none

/-- Day difference `abs((now.date() - pub_dt.date()).days)` for naive
epoch-second datetimes. -/
def dayDiff (now t : ℤ) : ℕ := (Int.fdiv now 86400 - Int.fdiv t 86400).natAbs

/-- Zero-padded numeral of at least `w` digits. -/
def padNum (w n : ℕ) : String :=
  let s := toString n
  String.mk (List.replicate (w - s.length) '0') ++ s

/-- The `_fmt` helper of the notification code:
`dt.replace(microsecond=0).isoformat() + "Z"`. -/
def fmtDT (t : ℤ) : String :=
  let days := Int.fdiv t 86400
  let s := (t - days * 86400).toNat
  let (y, m, d) := civilFromDays days
  padNum 4 y.toNat ++ "-" ++ padNum 2 m ++ "-" ++ padNum 2 d ++ "T" ++
    padNum 2 (s / 3600) ++ ":" ++ padNum 2 (s % 3600 / 60) ++ ":" ++ padNum 2 (s % 60) ++ "Z"

/-- `_book_raw_publication_datetime(_book_raw(book))` from `tracker/tasks.py`:
the stripped raw-snapshot publication string when present and non-blank. -/
def bookRawPublicationDatetime (b : Book) : Option String :=
  match b.rawPubDatetime with
  | Option.some v => if pyStrip v = "" then none else some (pyStrip v)
  | Option.none => none

/-- Last book of `l` carrying the (truthy) asin `a` — the value a Python dict
keyed by asin holds after inserting every element of `l` in order. -/
def lastWithAsin (l : List Book) (a : String) : Option Book :=
  l.foldl (fun acc b => if b.asin = some a ∧ a ≠ "" then some b else acc) none

/-- `_books_raw_changed` from `tracker/tasks.py`: true when some asin present
in both lists changed its raw publication datetime. -/
def booksRawChanged (old new : List Book) : Bool :=
  if old = [] ∨ new = [] then false
  else new.any fun b =>
    match b.asin with
    | Option.some a =>
        if a = "" then false
        else match lastWithAsin old a with
          | Option.some ob =>
              bookRawPublicationDatetime ob ≠ bookRawPublicationDatetime b
          | Option.none => false
    | Option.none => false

/-- Outcome of one `apprise.Apprise().notify(...)` call: returned true,
returned falsy, or raised.  The abstract channel is an oracle parameter. -/
inductive SendRes where
  | ok
  | failed
  | raised (msg : String)
deriving DecidableEq, Repr

/-- The error string recorded when `ap.notify` returns falsy. -/
def appriseFailMsg : String := "Apprise notification failed (all services returned failure)"

/-- The notification-relevant slice of a user document: `username` plus the
values of `bool(notifications.get("enabled"/"notify_new_audiobook"/
"notify_release", False))` and the raw `notifications.urls` list. -/
structure NotifUser where
  username : String
  enabled : Bool := false
  notify_new_audiobook : Bool := false
  notify_release : Bool := false
  urls : List String := []
deriving DecidableEq, Repr

/-- A LibraryEntry document (one per user/series subscription). `none` models
a missing key or a non-list value, which the code defaults to `[]`. -/
structure LibEntry where
  eid : ℕ
  username : Option String := none
  series_asin : Option String := none
  notified_new_asins : Option (List String) := none
  notified_releases : Option (List String) := none
  notified_new_asins_initialized : Bool := false
deriving DecidableEq, Repr

/-- A dedup-ledger write queued by a sweep: `$addToSet` of identifiers onto a
set field, or the new-item sweep's `$set` of the whole current set (which also
marks `notified_new_asins_initialized`). -/
inductive StoreOp where
  | addToSet (eid : ℕ) (field : String) (vals : List String)
  | setNotifiedNew (eid : ℕ) (vals : List String)
deriving DecidableEq, Repr

/-- An audit Job row inserted by `_record_notification_job` /
`_record_release_job`. -/
structure AuditJob where
  jobType : String
  username : Option String
  asin : Option String
  pendingAsins : List String
  body : String
  success : Bool
  errorMsg : Option String
deriving DecidableEq, Repr

/-- Everything a notification routine emits: the messages pushed to the
channel, the audit Job rows, and the batched dedup-ledger writes. -/
structure NotifyOutcome where
  sends : List (String × String × List String) := []
  jobs : List AuditJob := []
  ops : List StoreOp := []
deriving DecidableEq, Repr

/-- Python dict built by a comprehension keyed on `username`: the last
occurrence wins. -/
def userLookup (users : List NotifUser) (u : String) : Option NotifUser :=
  users.foldl (fun acc d => if d.username = u then some d else acc) none

/-- The url filter applied everywhere:
`[u for u in notif.get("urls", []) if isinstance(u, str) and u.strip()]`. -/
def filteredUrls (u : NotifUser) : List String := u.urls.filter (fun s => pyStrip s ≠ "")

/-- A truthy optional string (`None` and `""` are falsy). -/
def truthyStr : Option String → Option String
  | Option.some s => if s = "" then none else some s
  | Option.none => none

/-- The visible, truthy asins of a book list in encounter order. -/
def visibleAsins (books : List Book) : List String :=
  books.filterMap fun b =>
    if isBookHidden b then none else truthyStr b.asin

/-- The `book_map` lookup of `_send_series_notifications`: built from visible
books only, keyed by truthy asin, last occurrence winning. -/
def lastVisibleWithAsin (books : List Book) (a : String) : Option Book :=
  books.foldl (fun acc b =>
    if !isBookHidden b ∧ b.asin = some a ∧ a ≠ "" then some b else acc) none

/-- `book_map[a].get("title") or a` — the display title of an asin. -/
def displayTitle (a : String) (b : Book) : String :=
  match b.title with
  | Option.some t => if t = "" then a else t
  | Option.none => a

/-- `b.get('title') or _get(b, 'asin')` rendered into the release line
(f-string rendering of a `None` asin gives the text `None`). -/
def releaseDisplayTitle (b : Book) : String :=
  match b.title with
  | Option.some t => if t ≠ "" then t else (match b.asin with
      | Option.some a => a
      | Option.none => "None")
  | Option.none => match b.asin with
      | Option.some a => a
      | Option.none => "None"

/-- `series_doc.get("title") or f"Series {asin}"`. -/
def seriesTitleOf (title : Option String) (asin : String) : String :=
  match title with
  | Option.some t => if t = "" then "Series " ++ asin else t
  | Option.none => "Series " ++ asin

/-- One built message: `(title, body, asins, attachments)` as assembled into
`to_send_msgs`. -/
structure NotifMsg where
  title : String
  body : String
  asins : List String
  attachments : List String
deriving DecidableEq, Repr

/-- Fold of the per-message send loop of `_send_series_notifications`: `ok`
leaves the error untouched (the inline trigger never clears a previous
failure) and sets `sent_any`; a falsy return or an exception records the
error string. -/
def inlineSendLoop (res : List SendRes) : Option String × Bool :=
  res.foldl (fun (acc : Option String × Bool) r =>
    match r with
    | .ok => (acc.1, true)
    | .failed => (some appriseFailMsg, acc.2)
    | .raised s => (some s, acc.2)) (none, false)

/-- The misindented dedup-write loop of `_send_series_notifications` (lines
1020-1029 of `tasks.py`): `to_mark_new` grows per message, and the
`$addToSet` op is appended inside the loop, once per message iteration for
which the accumulator is non-empty. -/
def newMarkOps (eid : ℕ) (msgs : List NotifMsg) : List StoreOp :=
  (msgs.foldl (fun (acc : List String × List StoreOp) msg =>
    let marks := if msg.title = "New Audiobook(s)"
      then acc.1 ++ msg.asins.filter (· ≠ "") else acc.1
    let ops := if marks ≠ [] then acc.2 ++ [.addToSet eid "notified_new_asins" marks] else acc.2
    (marks, ops)) ([], [])).2

/-- Concatenation of the per-entry contributions of a notification routine. -/
def NotifyOutcome.append (a b : NotifyOutcome) : NotifyOutcome :=
  { sends := a.sends ++ b.sends, jobs := a.jobs ++ b.jobs, ops := a.ops ++ b.ops }

/-- One entry's processing inside `_send_series_notifications` (the body of
the `for entry in entries` loop).  `orc` is this entry's channel oracle,
indexed by message position in `to_send_msgs`. -/
def inlineEntryOutcome (asin : String) (st : String) (warnings : List String)
    (newAsins : List String) (releaseCandidates : List (Book × ℤ))
    (curBooks : List Book) (users : List NotifUser) (entry : LibEntry)
    (orc : ℕ → SendRes) : NotifyOutcome :=
  match truthyStr entry.username with
  | Option.none => {}
  | Option.some uname =>
    match userLookup users uname with
    | Option.none => {}
    | Option.some user =>
      let urls := filteredUrls user
      if ¬ user.enabled ∨ urls = [] then {}
      else if ¬ user.notify_new_audiobook ∧ ¬ user.notify_release then {}
      else
        let notifiedNew := entry.notified_new_asins.getD []
        let newMsg : Option NotifMsg :=
          if user.notify_new_audiobook ∧ newAsins ≠ [] then
            let toSend := newAsins.filter (· ∉ notifiedNew)
            let titles := toSend.filterMap fun a =>
              (lastVisibleWithAsin curBooks a).map (displayTitle a)
            let attachments := toSend.filterMap fun a =>
              (lastVisibleWithAsin curBooks a).bind (fun b => truthyStr b.image_url)
            if titles ≠ [] then
              some { title := "New Audiobook(s)"
                     body := "New audiobooks found in '" ++ st ++ "':\n- " ++
                       String.intercalate "\n- " titles ++
                       (if warnings ≠ [] then "\n\nNote: Narrator changes detected in this series." else "")
                     asins := toSend
                     attachments := attachments }
            else none
          else none
        let relMsg : Option NotifMsg :=
          if user.notify_release ∧ releaseCandidates ≠ [] then
            let notifiedRel := entry.notified_releases.getD []
            let pending := releaseCandidates.filter fun bd =>
              match bd.1.asin with
              | Option.some a => a ∉ notifiedRel
              | Option.none => true
            if pending ≠ [] then
              let titles := pending.map fun bd =>
                releaseDisplayTitle bd.1 ++ " (released at " ++ fmtDT bd.2 ++ ")"
              let pendingAsins := pending.filterMap fun bd => truthyStr bd.1.asin
              let attachments := pending.filterMap fun bd => truthyStr bd.1.image_url
              let heading := if pending.length = 1 then "Audiobook released" else "Audiobooks released"
              some { title := "Audiobook Release"
                     body := heading ++ " in '" ++ st ++ "':\n- " ++ String.intercalate "\n- " titles
                     asins := pendingAsins
                     attachments := attachments }
            else none
          else none
        let msgs := newMsg.toList ++ relMsg.toList
        if msgs = [] then {}
        else
          let err := (inlineSendLoop ((List.range msgs.length).map orc)).1
          let newJobs :=
            (match newMsg with
             | Option.some m => [{ jobType := "new_audiobook_notification"
                                   username := some uname, asin := some asin
                                   pendingAsins := m.asins, body := m.body
                                   success := err = none, errorMsg := err : AuditJob }]
             | Option.none => []) ++
            (match relMsg with
             | Option.some m => [{ jobType := "release_notification"
                                   username := some uname, asin := some asin
                                   pendingAsins := m.asins, body := m.body
                                   success := err = none, errorMsg := err : AuditJob }]
             | Option.none => [])
          let opsNew := if user.notify_new_audiobook ∧ newAsins ≠ [] then newMarkOps entry.eid msgs else []
          let opsRel :=
            if user.notify_release ∧ releaseCandidates ≠ [] then
              let toMarkRel := (msgs.filter (·.title = "Audiobook Release")).flatMap (·.asins)
              if toMarkRel ≠ [] then [StoreOp.addToSet entry.eid "notified_releases" toMarkRel] else []
            else []
          { sends := msgs.map (fun m => (m.title, m.body, m.attachments))
            jobs := newJobs
            ops := opsNew ++ opsRel }

/-- The new-asin diff of `_send_series_notifications`: visible truthy asins
of the current list that are absent from the old list (Python iterates the
set difference; encounter order is fixed here, membership is what matters). -/
def inlineNewAsins (oldBooks curBooks : List Book) : List String :=
  ((visibleAsins curBooks).eraseDups).filter (· ∉ (visibleAsins oldBooks).eraseDups)

/-- The release-candidate selection of `_send_series_notifications`: newly
discovered visible books whose effective publication time lies within one day
of now and is not in the future. -/
def inlineReleaseCandidates (now : ℤ) (newAsins : List String)
    (curBooks : List Book) : List (Book × ℤ) :=
  curBooks.filterMap fun b =>
    match truthyStr b.asin with
    | Option.some a =>
        if a ∈ newAsins ∧ ¬ isBookHidden b then
          match publicationDatetimeUtc b with
          | Option.some t => if dayDiff now t ≤ 1 ∧ t ≤ now then some (b, t) else none
          | Option.none => none
        else none
    | Option.none => none

/-- `_send_series_notifications` from `tracker/tasks.py` — the inline
notification trigger.  Inputs mirror the reads the function performs: the
subscription rows for this series (`lib_col.find({"series_asin": asin})`),
the user documents, and the channel outcome oracle (entry index × message
index).  The outcome collects the messages pushed to the channel, the audit
Job rows, and the batched dedup-ledger writes in emission order. -/
def sendSeriesNotifications (now : ℤ) (asin : String) (seriesTitle : Option String)
    (oldBooks curBooks : List Book) (entries : List LibEntry)
    (users : List NotifUser) (oracle : ℕ → ℕ → SendRes) : NotifyOutcome :=
  if (visibleAsins oldBooks).eraseDups = [] then {} else
  entries.enum.foldl (fun out ie =>
    out.append (inlineEntryOutcome asin (seriesTitleOf seriesTitle asin)
      (computeNarratorWarnings curBooks (some asin))
      (inlineNewAsins oldBooks curBooks)
      (inlineReleaseCandidates now (inlineNewAsins oldBooks curBooks) curBooks)
      curBooks users ie.2 (oracle ie.1))) {}

/-- The slice of a Series document the sweeps project
(`{"_id": 1, "books": 1, "title": 1, "cover_image": 1}`). -/
structure SeriesDocLite where
  sid : String
  title : Option String := none
  books : Option (List Book) := none
deriving DecidableEq, Repr

/-- The `series_cache` dict: last occurrence per id wins. -/
def seriesLookup (docs : List SeriesDocLite) (a : String) : Option SeriesDocLite :=
  docs.foldl (fun acc d => if d.sid = a then some d else acc) none

/-- Outcome classification of a single sweep send
(`_check_due_release_notifications` / `_check_new_audiobook_notifications`):
unlike the inline trigger, a successful `notify` explicitly clears the
error. -/
def sweepSendErr : SendRes → Option String
  | .ok => none
  | .failed => some appriseFailMsg
  | .raised s => some s

/-- One entry's processing inside `_check_due_release_notifications` (the
body of the `for entry in entries_cursor` loop); `err` is the send error of
this entry's notify call, `none` on success. -/
def releaseEntryOutcome (now : ℤ) (users : List NotifUser)
    (seriesDocs : List SeriesDocLite) (entry : LibEntry) (err : Option String) :
    NotifyOutcome :=
  match truthyStr entry.username, truthyStr entry.series_asin with
  | Option.some uname, Option.some asin =>
    (match userLookup users uname with
     | Option.none => {}
     | Option.some user =>
       let urls := filteredUrls user
       if ¬ (user.enabled ∧ user.notify_release ∧ urls ≠ []) then {}
       else
         let books := ((seriesLookup seriesDocs asin).bind (·.books)).getD []
         if books = [] then {}
         else
           let candidates : List (Book × ℤ) := books.filterMap fun b =>
             match truthyStr b.asin with
             | Option.some _ =>
                 match publicationDatetimeUtc b with
                 | Option.some t =>
                     if dayDiff now t > 1 then none
                     else if t > now then none
                     else some (b, t)
                 | Option.none => none
             | Option.none => none
           if candidates = [] then {}
           else
             let notifiedRel := entry.notified_releases.getD []
             let pending := candidates.filter fun bd =>
               match bd.1.asin with
               | Option.some a => a ∉ notifiedRel
               | Option.none => true
             if pending = [] then {}
             else
               let titles := pending.map fun bd =>
                 releaseDisplayTitle bd.1 ++ " (released at " ++ fmtDT bd.2 ++ ")"
               let pendingAsins := pending.filterMap fun bd => truthyStr bd.1.asin
               let st := seriesTitleOf ((seriesLookup seriesDocs asin).bind (·.title)) asin
               let heading := if pending.length = 1 then "Audiobook released" else "Audiobooks released"
               let body := heading ++ " in '" ++ st ++ "':\n- " ++ String.intercalate "\n- " titles
               let attachments := pending.filterMap fun bd => truthyStr bd.1.image_url
               { sends := [("Audiobook Release", body, attachments)]
                 jobs := [{ jobType := "release_notification", username := some uname
                            asin := some asin, pendingAsins := pendingAsins, body := body
                            success := err = none, errorMsg := err }]
                 ops := if pendingAsins ≠ []
                   then [StoreOp.addToSet entry.eid "notified_releases" pendingAsins] else [] })
  | _, _ => {}

/-- `_check_due_release_notifications` from `tracker/tasks.py` — the periodic
release sweep.  `entries` is the cursor over
`{"series_asin": {"$exists": True, "$ne": None}}`; `users` and `seriesDocs`
are the prefetched caches; `oracle` gives each iterated entry's channel
outcome. -/
def checkDueReleaseNotifications (now : ℤ) (entries : List LibEntry)
    (users : List NotifUser) (seriesDocs : List SeriesDocLite)
    (oracle : ℕ → SendRes) : NotifyOutcome :=
  entries.enum.foldl (fun out ie =>
    out.append (releaseEntryOutcome now users seriesDocs ie.2 (sweepSendErr (oracle ie.1)))) {}

/-- The dict keys of the new-item sweep's `book_map`: truthy asins of visible
books in first-occurrence order. -/
def bookMapKeys (visibleBooks : List Book) : List String :=
  (visibleBooks.filterMap (fun b => truthyStr b.asin)).eraseDups

/-- The `book_map[a]` lookup of the new-item sweep (built over the already
visibility-filtered list, last occurrence wins). -/
def lastBookWithAsin (l : List Book) (a : String) : Option Book :=
  l.foldl (fun acc b => if b.asin = some a ∧ a ≠ "" then some b else acc) none

/-- One entry's processing inside `_check_new_audiobook_notifications`.  Note
that the `$set` of the whole current visible set (plus the initialized flag)
is queued for every processed entry, independent of the send outcome and of
whether anything was pending. -/
def newEntryOutcome (users : List NotifUser) (seriesDocs : List SeriesDocLite)
    (entry : LibEntry) (err : Option String) : NotifyOutcome :=
  match truthyStr entry.username, truthyStr entry.series_asin with
  | Option.some uname, Option.some asin =>
    (match userLookup users uname with
     | Option.none => {}
     | Option.some user =>
       let urls := filteredUrls user
       if ¬ (user.enabled ∧ user.notify_new_audiobook ∧ urls ≠ []) then {}
       else
         match (seriesLookup seriesDocs asin).bind (·.books) with
         | Option.none => {}
         | Option.some books =>
           if books = [] then {}
           else
             let warnings := computeNarratorWarnings books (some asin)
             let visibleBooks := books.filter (fun b => !isBookHidden b)
             if visibleBooks = [] then {}
             else
               let keys := bookMapKeys visibleBooks
               if keys = [] then {}
               else
                 let knownNew := (entry.notified_new_asins.getD []).filter (· ≠ "")
                 let knownRel := (entry.notified_releases.getD []).filter (· ≠ "")
                 let pendingAsins := visibleBooks.filterMap fun b =>
                   match truthyStr b.asin with
                   | Option.some a => if a ∈ knownNew ∨ a ∈ knownRel then none else some a
                   | Option.none => none
                 let st := seriesTitleOf ((seriesLookup seriesDocs asin).bind (·.title)) asin
                 let sendPart : NotifyOutcome :=
                   if pendingAsins ≠ [] ∧ entry.notified_new_asins_initialized then
                     let titles := pendingAsins.filterMap fun a =>
                       (lastBookWithAsin visibleBooks a).map (displayTitle a)
                     let body := "New audiobooks found in '" ++ st ++ "':\n- " ++
                       String.intercalate "\n- " titles ++
                       (if warnings ≠ [] then "\n\nNote: Narrator changes detected for this book." else "")
                     { sends := [("New Audiobook(s)", body, [])]
                       jobs := [{ jobType := "new_audiobook_notification"
                                  username := some uname, asin := some asin
                                  pendingAsins := pendingAsins, body := body
                                  success := err = none, errorMsg := err }]
                       ops := [] }
                   else {}
                 { sends := sendPart.sends
                   jobs := sendPart.jobs
                   ops := [StoreOp.setNotifiedNew entry.eid keys] })
  | _, _ => {}

/-- `_check_new_audiobook_notifications` from `tracker/tasks.py` — the
periodic new-item sweep. -/
def checkNewAudiobookNotifications (entries : List LibEntry)
    (users : List NotifUser) (seriesDocs : List SeriesDocLite)
    (oracle : ℕ → SendRes) : NotifyOutcome :=
  entries.enum.foldl (fun out ie =>
    out.append (newEntryOutcome users seriesDocs ie.2 (sweepSendErr (oracle ie.1)))) {}

/-- The slice of a catalog product the probe consults: its relationship list
(`none` models a missing key) and its delivery-type marker. -/
structure Product where
  relationships : Option (List CatRel) := none
  content_delivery_type : Option String := none
deriving DecidableEq, Repr

/-- The slice of a stored Series document the probe and `set_series_books`
read: the raw parent snapshot, the stored books (`none` for missing or
non-list) and the series-level narrator-ignore toggle. -/
structure StoredSeries where
  raw : Option Product := none
  books : Option (List Book) := none
  ignore_narrator_warnings : Bool := false
deriving DecidableEq, Repr

/-- Canonical-parent resolution of `_do_refresh_series_probe` (lines
342-349 of `tasks.py`): follow an explicit parent-series link, else treat the
record itself as the parent when it looks like a series container.  Catalog
asins are strings; a non-string truthy `asin` value in a parent link does not
occur upstream and is not modelled. -/
def resolveParentAsin (asin : String) (p : Product) : Option String :=
  match (p.relationships.getD []).find? (fun r =>
      r.relationship_type = PyVal.str "series" ∧
      r.relationship_to_product = PyVal.str "parent" ∧ r.asin.truthy) with
  | Option.some r =>
      (match r.asin with
       | PyVal.str s => some s
       | _ => none)
  | Option.none =>
      if p.content_delivery_type = some "BookSeries" ∨
         (p.relationships.getD []).any (fun r => r.relationship_to_product = PyVal.str "child")
      then some asin else none

/-- The `done` result map of a probe job:
`{"book_count": ..., "changed": ..., "new_book": ...}`. -/
structure ProbeDone where
  bookCount : ℕ
  changed : Bool
  newBook : Bool
deriving DecidableEq, Repr

/-- Everything a probe run decides: the job result (or the error the handler
finishes the job with), the final in-store book list, the value of the
relationship comparison, the asins whose `next_refresh_at` was advanced one
cycle, the recomputed narrator warnings, and whether the inline notification
trigger was invoked. -/
structure ProbeOutcome where
  result : Except String ProbeDone
  booksCurrent : List Book
  relChanged : Bool
  nextRefreshSet : List String
  warnings : List String
  notifyInvoked : Bool
deriving Repr

/-- The probe's own newly-discovered-asin diff (lines 389-397 of `tasks.py`):
truthy asins of the current list minus those of the old list, with no
visibility filtering. -/
def newAsinsDiff (old cur : List Book) : List String :=
  let oldA := (old.filterMap (fun b => truthyStr b.asin)).eraseDups
  let curA := (cur.filterMap (fun b => truthyStr b.asin)).eraseDups
  curA.filter (· ∉ oldA)

/-- The common tail of `_do_refresh_series_probe` after the branch on
`changed or not old_books`: narrator warnings, the new-book diff, the
raw-publication diff, the `final_changed` flag, schedule advancement for the
probed asin and its resolved parent, and the finished job result. -/
def finishProbe (asin parentId : String) (relChanged : Bool)
    (oldBooks cur : List Book) (fetchedFull : Bool) : ProbeOutcome :=
  let warnings := computeNarratorWarnings cur (some asin)
  let newAsins := newAsinsDiff oldBooks cur
  let newBookAdded := newAsins ≠ []
  let rawChanged := booksRawChanged oldBooks cur
  let finalChanged := rawChanged ∨ newBookAdded ∨ (oldBooks = [] ∧ cur ≠ [])
  { result := Except.ok ⟨cur.length, finalChanged, newBookAdded⟩
    booksCurrent := cur
    relChanged := relChanged
    nextRefreshSet := [asin] ++ (if parentId ≠ "" ∧ parentId ≠ asin then [parentId] else [])
    warnings := warnings
    notifyInvoked := fetchedFull }

/-- The stored book list read at the top of the probe (`doc.get("books")`
with a non-list defaulting to `[]`). -/
def probeOldBooks (asin : String) (store : String → Option StoredSeries) : List Book :=
  ((store asin).bind (·.books)).getD []

/-- The relationship comparison of the probe:
`changed = not _relationships_equal(old_rels, new_rels) if new_rels is not
None else False`, over the stored raw snapshot's relationships. -/
def probeChanged (asin : String) (store : String → Option StoredSeries)
    (pf : Option Product) : Bool :=
  match pf.bind (·.relationships) with
  | Option.some nr =>
      !(relationshipsEqual (((store asin).bind (·.raw)).bind (·.relationships)) (some nr))
  | Option.none => false

/-- The canonical-parent resolution applied to the fetched parent product. -/
def probeParentAsin (asin : String) (pf : Option Product) : Option String :=
  pf.bind (resolveParentAsin asin)

/-- `_do_refresh_series_probe` from `tracker/tasks.py`.  `store` is the
read-only snapshot of the series collection; `parentFetch` is the unwrapped
result of the cheap parent-only fetch (`None` models both an exception and a
missing product, which `_load_product` folds together); `fullFetch` models
`_fetch_series_books_internal` — its `Except.error` case is an escaping
exception, caught by the handler and finishing the job in `error` state.
The notification side effects of the inline trigger are modelled separately
by `sendSeriesNotifications`; here only its invocation is recorded.  The
missing-payload guard (a job without an asin) is outside the model: `asin` is
a required argument. -/
def doRefreshSeriesProbe (asin : String) (store : String → Option StoredSeries)
    (parentFetch : Option Product)
    (fullFetch : Except String (List Book × Option Product × Option String)) :
    ProbeOutcome :=
  if probeChanged asin store parentFetch ∨ probeOldBooks asin store = [] then
    match fullFetch with
    | Except.error e =>
        { result := Except.error e, booksCurrent := probeOldBooks asin store
          relChanged := probeChanged asin store parentFetch
          nextRefreshSet := [], warnings := [], notifyInvoked := false }
    | Except.ok (books, _pObjFull, pAsinFull) =>
        let parentId := (pAsinFull <|> probeParentAsin asin parentFetch).getD asin
        finishProbe asin parentId (probeChanged asin store parentFetch)
          (probeOldBooks asin store)
          (setSeriesBooks (((store parentId).bind (·.books)).getD [])
            (((store parentId).map (·.ignore_narrator_warnings)).getD false) parentId books)
          true
  else
    finishProbe asin ((probeParentAsin asin parentFetch).getD asin)
      (probeChanged asin store parentFetch)
      (probeOldBooks asin store) (probeOldBooks asin store) false

/-- The projection of a Series document the scheduler reads: its id and its
`fetched_at` timestamp. -/
structure SDoc where
  sid : String := ""
  fetched_at : Option String := none
deriving DecidableEq, Repr

/-- The assignment walk of `_rebalance_auto_refresh`: the accumulator is the
exact rational `num / total` (Python accumulates the float
`interval = cycle / total`; the exact value of the accumulator after `k`
steps is `k * cycle / total`, of which `int(...)` is the floor, i.e. natural
division).  Each document gets `reference + max(int(acc), 1)` seconds. -/
def rebalGo (total : ℕ) (t : ℤ) (num : ℕ) : List SDoc → List (SDoc × ℤ)
  | [] => []
  | d :: rest => (d, t + (max (num / total) 1 : ℕ)) :: rebalGo total t (num + 86400) rest

/-- `_rebalance_auto_refresh(reference)` from `tracker/tasks.py`: documents
arrive sorted by `fetched_at` ascending (missing first) — the sort is done by
the store, so the input list is the cursor order — and each is assigned
`reference + max(int(offset_acc), 1)` with the accumulator starting at one
interval `cycle/N` and growing by one interval per document.  Times are
modelled as epoch seconds (`isoformat` is order-isomorphic to them). -/
def rebalanceAutoRefresh (docs : List SDoc) (t : ℤ) : List (SDoc × ℤ) :=
  if docs.length = 0 then [] else rebalGo docs.length t 86400 docs

/-- Round the nonnegative rational `p / q` (`q > 0`) to the nearest IEEE-754
binary64 value (53-bit significand, ties to even), returned as an exact
dyadic pair `(m, s)` of value `m / 2 ^ s`: `s` is the least shift putting
the scaled mantissa `p·2^s/q` into `[2^52, 2^53)`, and `m` rounds that
mantissa half-to-even.  Faithful for zero and for every value in the
binary64 normal range below `2^53`; all quotients and products arising in
the reschedule walk lie there. -/
def roundFloat (p q : ℕ) : ℕ × ℕ :=
  if p = 0 then (0, 0) else
    let s := Nat.clog 2 ((2 ^ 52 * q + p - 1) / p)
    let n := p * 2 ^ s
    let k := n / q
    let r := n % q
    let m :=
      if 2 * r < q then k
      else if q < 2 * r then k + 1
      else if k % 2 = 0 then k else k + 1
    (m, s)

/-- The scheduling offset of `reschedule_all_series` for document `i` of
`count`: the source evaluates `int((i / count) * interval_sec)` in float
arithmetic — the true division rounds to the nearest binary64, the product
with `86400` rounds again, and `int` truncates (floors, the value being
nonnegative). -/
def reschedOffset (i count : ℕ) : ℕ :=
  let d1 := roundFloat i count
  let d2 := roundFloat (d1.1 * 86400) (2 ^ d1.2)
  d2.1 / 2 ^ d2.2

/-- The assignment walk of `reschedule_all_series`: document `i` (0-based,
plain cursor order — this function applies no sort) gets
`now + int((i / count) * cycle)` evaluated in binary64 arithmetic
(`reschedOffset`), with no lower floor. -/
def reschedGo (count : ℕ) (t : ℤ) (i : ℕ) : List SDoc → List (SDoc × ℤ)
  | [] => []
  | d :: rest => (d, t + (reschedOffset i count : ℕ)) :: reschedGo count t (i + 1) rest

/-- `reschedule_all_series` from `tracker/tasks.py` (schedule part; the
returned count/message map is omitted). -/
def rescheduleAllSeries (docs : List SDoc) (t : ℤ) : List (SDoc × ℤ) :=
  if docs.length = 0 then [] else reschedGo docs.length t 0 docs

/-- The store's ascending order on `fetched_at` (missing sorts first,
strings by code points). -/
def fetchedAtLeB : Option String → Option String → Bool
  | Option.none, _ => true
  | Option.some _, Option.none => false
  | Option.some a, Option.some b => !strLtB b a

/-- A cursor sorted by `fetched_at` ascending. -/
def sortedByFetchedAt (docs : List SDoc) : Prop :=
  docs.Chain' (fun a b => fetchedAtLeB a.fetched_at b.fetched_at = true)

/-- `_increment_series_user_count` from `tracker/library.py`: `$inc` by
`delta`, then — only on the decrement path — clamp a negative stored value
back to zero. -/
def incrementSeriesUserCount (count delta : ℤ) : ℤ :=
  let c := count + delta
  if delta < 0 then (if c < 0 then 0 else c) else c

/-- The two library mutations that touch a series' denormalized count: a
subscription insert (`add_to_library`, `+1`) and a subscription delete
(`remove_from_library`, `-1`). -/
inductive LibCountOp where
  | add
  | remove
deriving DecidableEq, Repr

/-- Effect of one library operation on the stored `user_count`. -/
def applyLibCountOp (c : ℤ) : LibCountOp → ℤ
  | .add => incrementSeriesUserCount c 1
  | .remove => incrementSeriesUserCount c (-1)

theorem relLtB_asymm (a b : NormRel) (h : relLtB a b = true) : relLtB b a = false :=
  pvListLtB_asymm _ _ h

theorem relLtB_trans (a b c : NormRel) (hab : relLtB a b = true)
    (hbc : relLtB b c = true) : relLtB a c = true :=
  pvListLtB_trans _ _ _ hab hbc

theorem relLtB_total_key (a b : NormRel) (hab : relLtB a b = false)
    (hba : relLtB b a = false) : relKey a = relKey b :=
  pvListLtB_total_eq _ _ hab hba

/-- The reflexive closure of the composite-key comparison, the order in
which `_relationships_equal` leaves its normalized lists. -/
def relR (x y : NormRel) : Prop := relLtB x y = true ∨ x = y

instance relR_antisymm : IsAntisymm NormRel relR where
  antisymm a b hab hba := by
    rcases hab with hab | hab
    · rcases hba with hba | hba
      · have := relLtB_asymm _ _ hab
        rw [this] at hba
        exact absurd hba (by simp)
      · exact hba.symm
    · exact hab

/-- When the composite key is injective on the list's members, the embedded
sort is sorted for the antisymmetric relation `relR`. -/
theorem pySortedBy_sorted_relR (l : List NormRel)
    (hinj : ∀ x ∈ l, ∀ y ∈ l, relKey x = relKey y → x = y) :
    List.Sorted relR (pySortedBy relLtB l) := by
  have hp := pySortedBy_pairwise relLtB relLtB_trans relLtB_asymm l
  have hmem : ∀ z ∈ pySortedBy relLtB l, z ∈ l :=
    fun z hz => (pySortedBy_perm relLtB l).mem_iff.mp hz
  refine hp.imp_of_mem ?_
  intro a b ha hb h
  by_cases hab : relLtB a b = true
  · exact Or.inl hab
  · exact Or.inr (hinj a (hmem a ha) b (hmem b hb)
      (relLtB_total_key a b (Bool.eq_false_iff.mpr hab) h))

/-- Modelled from the spec: the normalization the claims themselves describe —
`{identifier, toRelation, type, sequence-or-sort (coerced to int, default 0),
title}` — defined only to express a claim's notion of "the same relationship"
and compare it against the source's `_relationships_equal`. -/
def specNormalizeRel (r : CatRel) : PyVal × PyVal × PyVal × ℤ × PyVal :=
  (r.asin, r.relationship_to_product, r.relationship_type,
   pyToInt 0 (if r.sequence.truthy then r.sequence
              else if r.sort.truthy then r.sort else .int 0),
   r.title)

/-- A relationship whose sequence is the string `"1"`. -/
def crelSeqStr : CatRel := { asin := .str "B001", sequence := .str "1" }

/-- The same relationship with the integer sequence `1`. -/
def crelSeqInt : CatRel := { asin := .str "B001", sequence := .int 1 }

/-- A bare relationship record. -/
def crelBase : CatRel := { asin := .str "B001", relationship_type := .str "series" }

/-- The same record carrying an extra unrelated key. -/
def crelNoise : CatRel :=
  { asin := .str "B001", relationship_type := .str "series"
    extra := [("unrelated", .int 7)] }

/-- C6 counterexample: two singleton lists whose members normalize identically
under the claim's own normalization (sequence coerced to int: `"1"` and `1`
both become `1`), yet `_relationships_equal` returns `False`, because the
source keeps the raw `sequence` value in the compared record and only coerces
it inside the sort key. -/
theorem c6_counterexample :
    [crelSeqStr].map specNormalizeRel = [crelSeqInt].map specNormalizeRel
    ∧ relationshipsEqual (some [crelSeqStr]) (some [crelSeqInt]) = false := by
  constructor
  · decide
  · decide

/-- C6 (amended): `_relationships_equal` is order- and noise-invariant in the
following sense: it returns `true` whenever the two lists contain the same
relationships — equal on the six retained raw fields `{asin,
relationship_to_product, relationship_type, sequence, sort, title}` — up to
permutation and extra unrelated keys, provided distinct normalized records
have distinct composite sort keys (the stable sort is only determined up to
key ties); and whenever it returns `true` the normalized lists are
permutations of each other, so changing one identifier in either list (which
changes the normalized multiset) makes it return `false`. -/
theorem c6_relationships_equal_invariance (a b : List CatRel) :
    (((a.map normRel).Perm (b.map normRel) →
      (∀ x ∈ a.map normRel, ∀ y ∈ a.map normRel, relKey x = relKey y → x = y) →
      relationshipsEqual (some a) (some b) = true))
    ∧ (relationshipsEqual (some a) (some b) = true →
        (a.map normRel).Perm (b.map normRel)) := by
  constructor
  · intro hperm hinj
    have hinjb : ∀ x ∈ b.map normRel, ∀ y ∈ b.map normRel, relKey x = relKey y → x = y := by
      intro x hx y hy
      exact hinj x (hperm.mem_iff.mpr hx) y (hperm.mem_iff.mpr hy)
    have s1 := pySortedBy_sorted_relR (a.map normRel) hinj
    have s2 := pySortedBy_sorted_relR (b.map normRel) hinjb
    have hp : (pySortedBy relLtB (a.map normRel)).Perm (pySortedBy relLtB (b.map normRel)) :=
      ((pySortedBy_perm _ _).trans hperm).trans (pySortedBy_perm _ _).symm
    have heq := List.eq_of_perm_of_sorted hp s1 s2
    simp [relationshipsEqual, normList, heq]
  · intro h
    have heq : pySortedBy relLtB (a.map normRel) = pySortedBy relLtB (b.map normRel) := by
      simpa [relationshipsEqual, normList] using h
    have h2 : (pySortedBy relLtB (a.map normRel)).Perm (b.map normRel) := by
      rw [heq]
      exact pySortedBy_perm _ _
    exact (pySortedBy_perm relLtB (a.map normRel)).symm.trans h2

/-- C6 witness: order/noise invariance at a concrete input — a record and its
copy with an extra unrelated key compare equal. -/
theorem c6_witness :
    relationshipsEqual (some [crelBase]) (some [crelNoise]) = true :=
  (c6_relationships_equal_invariance [crelBase] [crelNoise]).1 (by decide) (by decide)


theorem releaseEntryOutcome_ops_err (now : ℤ) (users : List NotifUser)
    (sd : List SeriesDocLite) (entry : LibEntry) (e1 e2 : Option String) :
    (releaseEntryOutcome now users sd entry e1).ops =
    (releaseEntryOutcome now users sd entry e2).ops := by
  unfold releaseEntryOutcome
  repeat' first | rfl | split | (simp only []; split)

set_option maxHeartbeats 1000000 in
theorem newEntryOutcome_ops_err (users : List NotifUser) (sd : List SeriesDocLite)
    (entry : LibEntry) (e1 e2 : Option String) :
    (newEntryOutcome users sd entry e1).ops = (newEntryOutcome users sd entry e2).ops := by
  unfold newEntryOutcome
  repeat' first | rfl | split | (simp only []; split)

set_option maxHeartbeats 1000000 in
theorem inlineEntryOutcome_ops_oracle (asin st : String) (warnings newAsins : List String)
    (cands : List (Book × ℤ)) (cur : List Book) (users : List NotifUser)
    (entry : LibEntry) (o1 o2 : ℕ → SendRes) :
    (inlineEntryOutcome asin st warnings newAsins cands cur users entry o1).ops =
    (inlineEntryOutcome asin st warnings newAsins cands cur users entry o2).ops := by
  unfold inlineEntryOutcome
  repeat' first | rfl | split | (simp only []; split)

/-- Fold transfer: when every per-entry contribution has outcome-independent
dedup writes, so does the accumulated result. -/
theorem foldl_append_ops_eq {β : Type} (f g : β → NotifyOutcome)
    (h : ∀ x, (f x).ops = (g x).ops) (l : List β) :
    ∀ (a b : NotifyOutcome), a.ops = b.ops →
      (l.foldl (fun out x => out.append (f x)) a).ops =
      (l.foldl (fun out x => out.append (g x)) b).ops := by
  induction l with
  | nil => intro a b hab; simpa using hab
  | cons x xs ih =>
      intro a b hab
      simp only [List.foldl_cons]
      exact ih _ _ (by simp [NotifyOutcome.append, hab, h x])

set_option maxHeartbeats 2000000 in
/-- C3 (amended): in all three notification paths — the inline trigger, the
periodic release sweep and the periodic new-item sweep — the queued
dedup-ledger writes are computed independently of the channel outcome: for
any two send oracles the `ops` emitted are identical, so a failed send still
records its identifiers (only the audit Job's success flag reflects the
failure) and the failed identifiers are not retried on the next sweep. -/
theorem c3_dedup_updates_independent_of_send (now : ℤ) (asin : String)
    (seriesTitle : Option String) (oldBooks curBooks : List Book)
    (entries : List LibEntry) (users : List NotifUser)
    (seriesDocs : List SeriesDocLite)
    (o1 o2 : ℕ → ℕ → SendRes) (p1 p2 q1 q2 : ℕ → SendRes) :
    (sendSeriesNotifications now asin seriesTitle oldBooks curBooks entries users o1).ops =
      (sendSeriesNotifications now asin seriesTitle oldBooks curBooks entries users o2).ops
    ∧ (checkDueReleaseNotifications now entries users seriesDocs p1).ops =
      (checkDueReleaseNotifications now entries users seriesDocs p2).ops
    ∧ (checkNewAudiobookNotifications entries users seriesDocs q1).ops =
      (checkNewAudiobookNotifications entries users seriesDocs q2).ops := by
  refine ⟨?_, ?_, ?_⟩
  · unfold sendSeriesNotifications
    by_cases h : (visibleAsins oldBooks).eraseDups = []
    · rw [if_pos h, if_pos h]
    · rw [if_neg h, if_neg h]
      exact foldl_append_ops_eq
        (fun ie => inlineEntryOutcome asin (seriesTitleOf seriesTitle asin)
          (computeNarratorWarnings curBooks (some asin)) (inlineNewAsins oldBooks curBooks)
          (inlineReleaseCandidates now (inlineNewAsins oldBooks curBooks) curBooks)
          curBooks users ie.2 (o1 ie.1))
        (fun ie => inlineEntryOutcome asin (seriesTitleOf seriesTitle asin)
          (computeNarratorWarnings curBooks (some asin)) (inlineNewAsins oldBooks curBooks)
          (inlineReleaseCandidates now (inlineNewAsins oldBooks curBooks) curBooks)
          curBooks users ie.2 (o2 ie.1))
        (fun ie => inlineEntryOutcome_ops_oracle asin (seriesTitleOf seriesTitle asin)
          (computeNarratorWarnings curBooks (some asin)) (inlineNewAsins oldBooks curBooks)
          (inlineReleaseCandidates now (inlineNewAsins oldBooks curBooks) curBooks)
          curBooks users ie.2 (o1 ie.1) (o2 ie.1))
        entries.enum {} {} rfl
  · unfold checkDueReleaseNotifications
    exact foldl_append_ops_eq
      (fun ie => releaseEntryOutcome now users seriesDocs ie.2 (sweepSendErr (p1 ie.1)))
      (fun ie => releaseEntryOutcome now users seriesDocs ie.2 (sweepSendErr (p2 ie.1)))
      (fun ie => releaseEntryOutcome_ops_err now users seriesDocs ie.2 _ _)
      entries.enum {} {} rfl
  · unfold checkNewAudiobookNotifications
    exact foldl_append_ops_eq
      (fun ie => newEntryOutcome users seriesDocs ie.2 (sweepSendErr (q1 ie.1)))
      (fun ie => newEntryOutcome users seriesDocs ie.2 (sweepSendErr (q2 ie.1)))
      (fun ie => newEntryOutcome_ops_err users seriesDocs ie.2 _ _)
      entries.enum {} {} rfl

/-- A stored book of the notification counterexamples. -/
def nbOld : Book := { title := some "Old Book", asin := some "A1" }

/-- A newly discovered book of the notification counterexamples. -/
def nbNew : Book := { title := some "New Book", asin := some "N1" }

/-- A subscription entry with empty dedup sets. -/
def subEntry : LibEntry := { eid := 7, username := some "u", series_asin := some "S" }

/-- A subscriber with notifications enabled and one destination. -/
def subUser : NotifUser :=
  { username := "u", enabled := true, notify_new_audiobook := true, urls := ["json://h"] }

/-- C3 counterexample: a failing send (the channel returns falsy for every
message).  The claim says the dedup sets are not updated with that attempt's
identifiers; the code still queues the `$addToSet` of the new asin while
recording the audit Job as failed. -/
theorem c3_counterexample :
    (sendSeriesNotifications 0 "S" (some "T") [nbOld] [nbOld, nbNew]
        [subEntry] [subUser] (fun _ _ => .failed)).ops =
      [StoreOp.addToSet 7 "notified_new_asins" ["N1"]]
    ∧ (sendSeriesNotifications 0 "S" (some "T") [nbOld] [nbOld, nbNew]
        [subEntry] [subUser] (fun _ _ => .failed)).jobs.map
          (fun j => (j.jobType, j.success)) =
      [("new_audiobook_notification", false)] := by
  constructor
  · rfl
  · rfl

/-- C7: the initial-population guard — with no previously stored visible book
identifiers, the inline trigger emits nothing: no sends, no audit jobs, no
dedup writes, whatever the current books, subscriptions, users and channel
outcomes are. -/
theorem c7_no_notification_on_first_add (now : ℤ) (asin : String)
    (seriesTitle : Option String) (newBooks : List Book)
    (entries : List LibEntry) (users : List NotifUser) (oracle : ℕ → ℕ → SendRes) :
    sendSeriesNotifications now asin seriesTitle [] newBooks entries users oracle =
      { sends := [], jobs := [], ops := [] } := by
  rfl

/-- Floor-division bounds: `a/n + c/n ≤ (a+c)/n ≤ a/n + c/n + 1`. -/
theorem div_add_bounds (a c n : ℕ) (hn : 0 < n) :
    a / n + c / n ≤ (a + c) / n ∧ (a + c) / n ≤ a / n + c / n + 1 := by
  rw [Nat.add_div hn]
  split <;> omega

/-- Index characterization of the rebalance walk: document `i` receives
offset `max ((num + i * cycle) / total) 1`. -/
theorem rebalGo_get? (total : ℕ) (t : ℤ) :
    ∀ (docs : List SDoc) (num i : ℕ),
      (rebalGo total t num docs).get? i =
        (docs.get? i).map (fun d => (d, t + (max ((num + i * 86400) / total) 1 : ℕ))) := by
  intro docs
  induction docs with
  | nil => intro num i; simp [rebalGo]
  | cons d rest ih =>
      intro num i
      cases i with
      | zero => simp [rebalGo]
      | succ j =>
          simp only [rebalGo, List.get?_cons_succ, ih (num + 86400) j]
          have : num + 86400 + j * 86400 = num + (j + 1) * 86400 := by ring
          rw [this]

/-- Index characterization of the `reschedule_all_series` walk: document `i`
receives the float offset `reschedOffset (j + i) count` when the counter
starts at `j`. -/
theorem reschedGo_get? (count : ℕ) (t : ℤ) :
    ∀ (docs : List SDoc) (j i : ℕ),
      (reschedGo count t j docs).get? i =
        (docs.get? i).map (fun d => (d, t + (reschedOffset (j + i) count : ℕ))) := by
  intro docs
  induction docs with
  | nil => intro j i; simp [reschedGo]
  | cons d rest ih =>
      intro j i
      cases i with
      | zero => simp [reschedGo]
      | succ k =>
          simp only [reschedGo, List.get?_cons_succ, ih (j + 1) k]
          have : j + 1 + k = j + (k + 1) := by ring
          rw [this]

/-- The reschedule walk preserves the cursor order: mapping back to the
documents returns the input list unchanged — no `fetched_at` sort is
applied. -/
theorem reschedGo_fst (count : ℕ) (t : ℤ) :
    ∀ (docs : List SDoc) (j : ℕ), (reschedGo count t j docs).map Prod.fst = docs := by
  intro docs
  induction docs with
  | nil => intro j; rfl
  | cons d rest ih => intro j; simp [reschedGo, ih]

/-- Rounding zero gives the exact float zero. -/
theorem roundFloat_zero (q : ℕ) : roundFloat 0 q = (0, 0) := rfl

/-- The first reschedule offset is exactly zero: `0 / count` is the float
`0.0`, `0.0 * 86400` is `0.0`, and `int(0.0) = 0` — all three steps are
exact in binary64, for every `count`. -/
theorem reschedOffset_zero (count : ℕ) : reschedOffset 0 count = 0 := by
  unfold reschedOffset
  rw [roundFloat_zero]
  rfl

/-- Build a `Chain'` from a consecutive-elements property stated with
`get?`. -/
theorem chain'_of_get? {α : Type} (R : α → α → Prop) :
    ∀ (l : List α), (∀ i x y, l.get? i = some x → l.get? (i + 1) = some y → R x y) →
      l.Chain' R := by
  intro l
  induction l with
  | nil => intro _; simp
  | cons a t ih =>
      intro h
      cases t with
      | nil => simp
      | cons b t2 =>
          rw [List.chain'_cons]
          refine ⟨h 0 a b rfl rfl, ih ?_⟩
          intro i x y hx hy
          exact h (i + 1) x y (by simpa using hx) (by simpa using hy)

/-- The time assigned at index `i` by the rebalance walk. -/
theorem rebalance_time_at (docs : List SDoc) (t : ℤ) (hne : docs ≠ []) (i : ℕ) :
    ((rebalanceAutoRefresh docs t).map Prod.snd).get? i =
      (docs.get? i).map
        (fun _ => t + (max (((i + 1) * 86400) / docs.length) 1 : ℕ)) := by
  have hlen : docs.length ≠ 0 := by simpa using List.length_pos.mpr hne |>.ne'
  rw [rebalanceAutoRefresh, if_neg hlen, List.get?_map, rebalGo_get?]
  have : 86400 + i * 86400 = (i + 1) * 86400 := by ring
  rw [this]
  cases docs.get? i <;> rfl

/-- C4 (amended): after `rebalance(t)` on a non-empty population sorted by
`fetchedAt`, every assigned `nextRefreshAt` lies in `(t, t + cycle]`; and —
provided the population does not exceed the cycle length in seconds
(N ≤ 86400, so that the per-series interval is at least one second after
truncation) — the assigned times are strictly increasing along the
`fetchedAt` order and consecutive times are spaced by `cycle/N` truncated to
whole seconds, up to one second.  (For N > 86400 the truncated offsets
repeat, so strict monotonicity fails; see the counterexample.) -/
theorem c4_rebalance_determinism (docs : List SDoc) (t : ℤ)
    (hne : docs ≠ []) (hsorted : sortedByFetchedAt docs) :
    (∀ x ∈ (rebalanceAutoRefresh docs t).map Prod.snd, t < x ∧ x ≤ t + 86400)
    ∧ (docs.length ≤ 86400 →
        ((rebalanceAutoRefresh docs t).map Prod.snd).Chain' (· < ·)
        ∧ (∀ i x y,
            ((rebalanceAutoRefresh docs t).map Prod.snd).get? i = some x →
            ((rebalanceAutoRefresh docs t).map Prod.snd).get? (i + 1) = some y →
            ((86400 / docs.length : ℕ) : ℤ) ≤ y - x ∧
              y - x ≤ ((86400 / docs.length : ℕ) : ℤ) + 1)) := by
  have hpos : 0 < docs.length := List.length_pos.mpr hne
  have key : ∀ i x, ((rebalanceAutoRefresh docs t).map Prod.snd).get? i = some x →
      i < docs.length ∧ x = t + (max (((i + 1) * 86400) / docs.length) 1 : ℕ) := by
    intro i x hx
    rw [rebalance_time_at docs t hne i] at hx
    cases hget : docs.get? i with
    | none => rw [hget] at hx; simp at hx
    | some d =>
        rw [hget] at hx
        simp only [Option.map_some'] at hx
        have hi : i < docs.length := by
          rcases List.get?_eq_some.mp hget with ⟨hw, _⟩
          exact hw
        exact ⟨hi, ((Option.some.injEq _ _).mp hx).symm⟩
  constructor
  · intro x hx
    rcases List.mem_iff_get.mp hx with ⟨n, hn⟩
    have hx' : ((rebalanceAutoRefresh docs t).map Prod.snd).get? n = some x := by
      rw [List.get?_eq_get]; exact congrArg some hn
    rcases key n x hx' with ⟨hlt, hxeq⟩
    have hub : ((n + 1) * 86400) / docs.length ≤ 86400 := by
      have h1 : (n + 1) * 86400 ≤ docs.length * 86400 :=
        Nat.mul_le_mul_right _ (by omega)
      have h2 : docs.length * 86400 / docs.length = 86400 :=
        Nat.mul_div_cancel_left _ hpos
      calc ((n + 1) * 86400) / docs.length ≤ docs.length * 86400 / docs.length :=
            Nat.div_le_div_right h1
        _ = 86400 := h2
    have hmax1 : 1 ≤ max (((n + 1) * 86400) / docs.length) 1 := le_max_right _ _
    have hmax2 : max (((n + 1) * 86400) / docs.length) 1 ≤ 86400 :=
      max_le hub (by omega)
    subst hxeq
    omega
  · intro hN
    have hint : 1 ≤ 86400 / docs.length := (Nat.one_le_div_iff hpos).mpr hN
    have hmaxeq : ∀ k : ℕ, max (((k + 1) * 86400) / docs.length) 1 =
        ((k + 1) * 86400) / docs.length := by
      intro k
      refine Nat.max_eq_left ?_
      calc 1 ≤ 86400 / docs.length := hint
        _ ≤ ((k + 1) * 86400) / docs.length :=
            Nat.div_le_div_right (by omega)
    have hdiff : ∀ i x y,
        ((rebalanceAutoRefresh docs t).map Prod.snd).get? i = some x →
        ((rebalanceAutoRefresh docs t).map Prod.snd).get? (i + 1) = some y →
        ((86400 / docs.length : ℕ) : ℤ) ≤ y - x ∧
          y - x ≤ ((86400 / docs.length : ℕ) : ℤ) + 1 := by
      intro i x y hx hy
      rcases key i x hx with ⟨_, hxeq⟩
      rcases key (i + 1) y hy with ⟨_, hyeq⟩
      rw [hmaxeq i] at hxeq
      rw [hmaxeq (i + 1)] at hyeq
      have hb := div_add_bounds ((i + 1) * 86400) 86400 docs.length hpos
      have harith : (i + 1) * 86400 + 86400 = (i + 1 + 1) * 86400 := by ring
      rw [harith] at hb
      subst hxeq hyeq
      rcases hb with ⟨hb1, hb2⟩
      omega
    refine ⟨?_, hdiff⟩
    refine chain'_of_get? _ _ ?_
    intro i x y hx hy
    rcases hdiff i x y hx hy with ⟨hlow, _⟩
    have h1 : (1 : ℤ) ≤ ((86400 / docs.length : ℕ) : ℤ) := by exact_mod_cast hint
    omega

/-- The 86401-document population of the rebalance counterexample (all with
no `fetchedAt`, so any order is the `fetchedAt` order). -/
def docsHuge : List SDoc := List.replicate 86401 ({} : SDoc)

/-- A relation holds along any replicated list once it holds reflexively at
the repeated element. -/
theorem chain'_replicate_of_rel {α : Type} (R : α → α → Prop) (d : α) (h : R d d) :
    ∀ n, List.Chain' R (List.replicate n d) := by
  intro n
  induction n with
  | zero => simp
  | succ m ih =>
      cases m with
      | zero => simp
      | succ k =>
          rw [List.replicate_succ, List.replicate_succ, List.chain'_cons,
            ← List.replicate_succ]
          exact ⟨h, ih⟩

/-- C4 counterexample: with N = 86401 series the per-series interval
`cycle/N` truncates to zero seconds, the floor lifts the first offsets to one
second each, and the assigned times are no longer strictly increasing — the
first two series both receive `t + 1`, refuting strict monotonicity for
arbitrary N ≥ 1 (the population is sorted by `fetchedAt`: all documents have
none). -/
theorem c4_counterexample :
    docsHuge.length = 86401 ∧ sortedByFetchedAt docsHuge ∧
    ((rebalanceAutoRefresh docsHuge 0).map Prod.snd).get? 0 = some 1 ∧
    ((rebalanceAutoRefresh docsHuge 0).map Prod.snd).get? 1 = some 1 ∧
    ¬ (∀ i x y, ((rebalanceAutoRefresh docsHuge 0).map Prod.snd).get? i = some x →
        ((rebalanceAutoRefresh docsHuge 0).map Prod.snd).get? (i + 1) = some y →
        x < y) := by
  have hlen : docsHuge.length = 86401 := by rw [docsHuge, List.length_replicate]
  have hne : docsHuge ≠ [] := by
    intro h
    have hl := congrArg List.length h
    rw [hlen] at hl
    simp at hl
  have hget0 : docsHuge.get? 0 = some ({} : SDoc) := by
    rw [docsHuge, List.get?_eq_getElem?, List.getElem?_replicate]
    norm_num
  have hget1 : docsHuge.get? 1 = some ({} : SDoc) := by
    rw [docsHuge, List.get?_eq_getElem?, List.getElem?_replicate]
    norm_num
  have h0 : ((rebalanceAutoRefresh docsHuge 0).map Prod.snd).get? 0 = some 1 := by
    rw [rebalance_time_at docsHuge 0 hne 0, hlen, hget0]
    have hd : ((0 + 1) * 86400) / 86401 = 0 := by decide
    simp [hd]
  have h1 : ((rebalanceAutoRefresh docsHuge 0).map Prod.snd).get? 1 = some 1 := by
    rw [rebalance_time_at docsHuge 0 hne 1, hlen, hget1]
    have hd : ((1 + 1) * 86400) / 86401 = 1 := by decide
    simp [hd]
  refine ⟨hlen, ?_, h0, h1, ?_⟩
  · unfold sortedByFetchedAt docsHuge
    exact chain'_replicate_of_rel
      (fun a b => fetchedAtLeB a.fetched_at b.fetched_at = true) ({} : SDoc) (by rfl) 86401
  · intro hmono
    have := hmono 0 1 1 h0 h1
    omega

/-- A two-document population, sorted by `fetchedAt` (missing first). -/
def docsPair : List SDoc := [{ sid := "A" }, { sid := "B", fetched_at := some "2024-01-01" }]

/-- C4 witness: the amended rebalance theorem at a concrete two-series
population — both times in `(0, 86400]` and strictly increasing with spacing
`43200`. -/
theorem c4_witness :
    ((0 : ℤ) < 43200 ∧ (43200 : ℤ) ≤ 0 + 86400) ∧
    ((rebalanceAutoRefresh docsPair 0).map Prod.snd).Chain' (· < ·) := by
  have hs : sortedByFetchedAt docsPair := by
    unfold sortedByFetchedAt docsPair
    rw [List.chain'_cons]
    exact ⟨rfl, List.chain'_singleton _⟩
  constructor
  · exact (c4_rebalance_determinism docsPair 0 (by decide) hs).1 43200 (by decide)
  · exact ((c4_rebalance_determinism docsPair 0 (by decide) hs).2 (by decide)).1

/-- C5 (amended): `reschedule_all_series` does not reproduce the §4.2
rebalance schedule: it walks the series in plain cursor order (it applies no
`fetchedAt` sort — the documents come back exactly in input order), starts
the offset at zero rather than at one interval and applies no one-second
floor, so the first series is rescheduled to the reference time itself —
exactly, since `int((0/count)*86400)` is `0` in float arithmetic — whereas
the rebalance algorithm gives a lone series the full-cycle offset
`t + 86400` (also float-exact: `86400/1` and its accumulation are
representable). -/
theorem c5_reschedule_vs_rebalance (docs : List SDoc) (t : ℤ) :
    (rescheduleAllSeries docs t).map Prod.fst = docs
    ∧ (docs ≠ [] → ((rescheduleAllSeries docs t).map Prod.snd).get? 0 = some t)
    ∧ (∀ d, (rebalanceAutoRefresh [d] t).map Prod.snd = [t + 86400]) := by
  refine ⟨?_, ?_, ?_⟩
  · by_cases hne : docs = []
    · subst hne
      rw [rescheduleAllSeries]
      simp
    · have hlen : docs.length ≠ 0 := by
        simpa using (List.length_pos.mpr hne).ne'
      rw [rescheduleAllSeries, if_neg hlen]
      exact reschedGo_fst docs.length t docs 0
  · intro hne
    have hlen : docs.length ≠ 0 := by
      simpa using (List.length_pos.mpr hne).ne'
    rw [rescheduleAllSeries, if_neg hlen, List.get?_map, reschedGo_get?]
    cases docs with
    | nil => exact absurd rfl hne
    | cons d rest => simp [reschedOffset_zero]
  · intro d
    rw [rebalanceAutoRefresh]
    norm_num [rebalGo]

/-- A one-document population for the reschedule counterexample. -/
def docSingle : SDoc := { sid := "A" }

/-- C5 witness: the amended theorem at a concrete one-series population —
the lone document is rescheduled to the reference time itself, while the
rebalance algorithm would give it the full-cycle offset. -/
theorem c5_witness :
    ((rescheduleAllSeries [docSingle] 7).map Prod.snd).get? 0 = some 7
    ∧ (rebalanceAutoRefresh [docSingle] 7).map Prod.snd = [7 + 86400] :=
  ⟨(c5_reschedule_vs_rebalance [docSingle] 7).2.1 (by decide),
   (c5_reschedule_vs_rebalance [docSingle] 7).2.2 docSingle⟩

/-- C5 counterexample: on a single series at reference time 0,
`reschedule_all_series` assigns time 0 (offset `int((0/1)*86400) = 0`,
float-exact, no floor) while the §4.2 rebalance assigns `86400` (the offset
accumulator starts at one interval, here the float-exact `86400.0`), so the
two schedule assignments are not equivalent. -/
theorem c5_counterexample :
    (rescheduleAllSeries [docSingle] 0).map Prod.snd = [0] ∧
    (rebalanceAutoRefresh [docSingle] 0).map Prod.snd = [86400] ∧
    rescheduleAllSeries [docSingle] 0 ≠ rebalanceAutoRefresh [docSingle] 0 := by
  refine ⟨rfl, rfl, by decide⟩

/-- C9: the denormalized subscriber count never goes negative: starting from
any non-negative stored value (new Series documents start at 0), any sequence
of subscribe/unsubscribe mutations leaves `user_count` non-negative, because
the decrement path immediately clamps values below zero back to zero. -/
theorem c9_user_count_nonneg (ops : List LibCountOp) (c0 : ℤ) (h : 0 ≤ c0) :
    0 ≤ ops.foldl applyLibCountOp c0 := by
  induction ops generalizing c0 with
  | nil => simpa using h
  | cons op rest ih =>
      simp only [List.foldl_cons]
      apply ih
      cases op <;> simp only [applyLibCountOp, incrementSeriesUserCount] <;> split <;> omega

/-- C9 witness: two removals from an empty count followed by an addition stay
non-negative. -/
theorem c9_witness :
    (0 : ℤ) ≤ [LibCountOp.remove, LibCountOp.remove, LibCountOp.add].foldl applyLibCountOp 0 :=
  c9_user_count_nonneg [LibCountOp.remove, LibCountOp.remove, LibCountOp.add] 0 (by decide)

/-- The duplicate-resolution key of one book. -/
def dedupDateKey (b : Book) : Option ℕ := parseDateKey b.release_date

theorem dateNoneBotLt_irrefl (a : Option ℕ) : dateNoneBotLt a a = false := by
  cases a <;> simp [dateNoneBotLt]

theorem dateNoneBotLt_trans (a b c : Option ℕ) (hab : dateNoneBotLt a b = true)
    (hbc : dateNoneBotLt b c = true) : dateNoneBotLt a c = true := by
  cases a <;> cases b <;> cases c <;> simp_all [dateNoneBotLt] <;> omega

theorem dateNoneBotLt_total (a b : Option ℕ) (h : dateNoneBotLt a b = false) :
    dateNoneBotLt b a = true ∨ a = b := by
  cases a <;> cases b <;> simp_all [dateNoneBotLt] <;> omega

theorem pickNewer_eq_or (h b : Book) : pickNewer h b = h ∨ pickNewer h b = b := by
  unfold pickNewer
  split
  · exact Or.inr rfl
  · exact Or.inl rfl

/-- The fold that resolves a duplicate-title group returns a member of the
group. -/
theorem foldl_pickNewer_mem : ∀ (rest : List Book) (h : Book),
    rest.foldl pickNewer h ∈ h :: rest := by
  intro rest
  induction rest with
  | nil => intro h; simp
  | cons r rs ih =>
      intro h
      simp only [List.foldl_cons]
      have hmem := ih (pickNewer h r)
      rcases List.mem_cons.mp hmem with heq | hmem2
      · rw [heq]
        rcases pickNewer_eq_or h r with hp | hp <;> rw [hp]
        · exact List.mem_cons_self _ _
        · exact List.mem_cons.mpr (Or.inr (List.mem_cons_self _ _))
      · exact List.mem_cons.mpr (Or.inr (List.mem_cons.mpr (Or.inr hmem2)))

/-- Transfer of non-strictness along the key order: if `res` is not below
`p` and `p` is not below `h`, then `res` is not below `h`. -/
theorem dateNoneBotLt_notLt_trans (kres kp kh : Option ℕ)
    (h1 : dateNoneBotLt kres kp = false) (h2 : dateNoneBotLt kp kh = false) :
    dateNoneBotLt kres kh = false := by
  cases hc : dateNoneBotLt kres kh with
  | false => rfl
  | true =>
      rcases dateNoneBotLt_total _ _ h2 with hhp | heq
      · have := dateNoneBotLt_trans _ _ _ hc hhp
        rw [this] at h1
        exact h1
      · rw [heq] at h1
        rw [hc] at h1
        exact h1

/-- The duplicate-resolution step never picks a book below either operand. -/
theorem pickNewer_ge (h b : Book) :
    dateNoneBotLt (dedupDateKey (pickNewer h b)) (dedupDateKey h) = false ∧
    dateNoneBotLt (dedupDateKey (pickNewer h b)) (dedupDateKey b) = false := by
  unfold pickNewer
  split
  · next hlt =>
      constructor
      · cases hc : dateNoneBotLt (dedupDateKey b) (dedupDateKey h) with
        | false => rfl
        | true =>
            have hlt' : dateNoneBotLt (dedupDateKey h) (dedupDateKey b) = true := by
              simpa [dedupDateKey] using hlt
            have := dateNoneBotLt_trans _ _ _ hc hlt'
            rw [dateNoneBotLt_irrefl] at this
            exact this.symm
      · exact dateNoneBotLt_irrefl _
  · next hlt =>
      refine ⟨dateNoneBotLt_irrefl _, ?_⟩
      simpa [dedupDateKey] using hlt

/-- The fold that resolves a duplicate-title group returns a member whose
release-date key no other member strictly exceeds. -/
theorem foldl_pickNewer_max : ∀ (rest : List Book) (h : Book),
    ∀ c ∈ h :: rest,
      dateNoneBotLt (dedupDateKey (rest.foldl pickNewer h)) (dedupDateKey c) = false := by
  intro rest
  induction rest with
  | nil =>
      intro h c hc
      rcases List.mem_cons.mp hc with rfl | hc
      · simp [dateNoneBotLt_irrefl]
      · simp at hc
  | cons r rs ih =>
      intro h c hc
      simp only [List.foldl_cons]
      have hp := pickNewer_ge h r
      have hres := ih (pickNewer h r) (pickNewer h r) (List.mem_cons_self _ _)
      rcases List.mem_cons.mp hc with rfl | hc'
      · exact dateNoneBotLt_notLt_trans _ _ _ hres hp.1
      · rcases List.mem_cons.mp hc' with rfl | hc2
        · exact dateNoneBotLt_notLt_trans _ _ _ hres hp.2
        · exact ih (pickNewer h r) c (List.mem_cons.mpr (Or.inr hc2))

/-- What `keptForTitle` returns: a member of the title group whose
release-date key no group member strictly exceeds. -/
theorem keptForTitle_spec (books : List Book) (t : String) (b : Book)
    (h : keptForTitle books t = some b) :
    b ∈ books.filter (fun x => normTitleOf x = t) ∧
    ∀ c ∈ books.filter (fun x => normTitleOf x = t),
      dateNoneBotLt (dedupDateKey b) (dedupDateKey c) = false := by
  unfold keptForTitle at h
  cases hf : books.filter (fun x => normTitleOf x = t) with
  | nil => rw [hf] at h; simp at h
  | cons hd tl =>
      rw [hf] at h
      simp only [Option.some.injEq] at h
      subst h
      constructor
      · exact foldl_pickNewer_mem tl hd
      · intro c hc
        exact foldl_pickNewer_max tl hd c hc

/-- The accumulated group-title list stays duplicate-free. -/
theorem groupTitles_aux_nodup : ∀ (books : List Book) (acc : List String),
    acc.Nodup →
    (books.foldl (fun acc b =>
      let t := normTitleOf b
      if t = "" ∨ t ∈ acc then acc else acc ++ [t]) acc).Nodup := by
  intro books
  induction books with
  | nil => intro acc h; simpa using h
  | cons b bs ih =>
      intro acc h
      simp only [List.foldl_cons]
      apply ih
      split
      · exact h
      · next hcond =>
          rw [List.nodup_append]
          push_neg at hcond
          exact ⟨h, List.nodup_singleton _, by
            intro a ha hb
            simp at hb
            subst hb
            exact hcond.2 ha⟩

/-- Group titles are duplicate-free. -/
theorem groupTitles_nodup (books : List Book) : (groupTitles books).Nodup :=
  groupTitles_aux_nodup books [] (by simp)

/-- Every accumulated group title is non-empty. -/
theorem groupTitles_aux_ne : ∀ (books : List Book) (acc : List String),
    (∀ t ∈ acc, t ≠ "") →
    ∀ t ∈ (books.foldl (fun acc b =>
      let t := normTitleOf b
      if t = "" ∨ t ∈ acc then acc else acc ++ [t]) acc), t ≠ "" := by
  intro books
  induction books with
  | nil => intro acc h; simpa using h
  | cons b bs ih =>
      intro acc h
      simp only [List.foldl_cons]
      apply ih
      split
      · exact h
      · next hcond =>
          push_neg at hcond
          intro t ht
          rcases List.mem_append.mp ht with ht | ht
          · exact h t ht
          · simp at ht
            subst ht
            exact hcond.1
  
/-- Every group title is non-empty. -/
theorem groupTitles_ne_empty (books : List Book) :
    ∀ t ∈ groupTitles books, t ≠ "" :=
  groupTitles_aux_ne books [] (by simp)

/-- Mapping members of a `filterMap` back to their keys yields a sublist of
the key list. -/
theorem map_filterMap_sublist {α β : Type} (f : α → Option β) (g : β → α)
    (hfg : ∀ t b, f t = some b → g b = t) :
    ∀ l : List α, ((l.filterMap f).map g).Sublist l := by
  intro l
  induction l with
  | nil => simp
  | cons t ts ih =>
      cases hf : f t with
      | none =>
          rw [List.filterMap_cons_none hf]
          exact ih.cons t
      | some b =>
          rw [List.filterMap_cons_some hf]
          simp only [List.map_cons]
          rw [hfg t b hf]
          exact ih.cons₂ t

theorem processBook_title (em : List (String × Book)) (si : Bool) (b : Book) :
    (processBook em si b).title = b.title := rfl

theorem processBook_release (em : List (String × Book)) (si : Bool) (b : Book) :
    (processBook em si b).release_date = b.release_date := rfl

theorem processBook_normTitle (em : List (String × Book)) (si : Bool) (b : Book) :
    normTitleOf (processBook em si b) = normTitleOf b := by
  unfold normTitleOf
  rw [processBook_title]

/-- Unpack membership in the deduplicated list. -/
theorem mem_dedup_spec (books : List Book) (b : Book)
    (h : b ∈ deduplicateBooksByTitle books) :
    ∃ t ∈ groupTitles books, keptForTitle books t = some b := by
  unfold deduplicateBooksByTitle at h
  rcases List.mem_filterMap.mp h with ⟨t, ht, hk⟩
  exact ⟨t, ht, hk⟩

theorem keptForTitle_normTitle (books : List Book) :
    ∀ (t : String) (b : Book), keptForTitle books t = some b → normTitleOf b = t := by
  intro t b h
  have hm := (keptForTitle_spec books t b h).1
  simpa using (List.mem_filter.mp hm).2

/-- C8: after `set_series_books`, the persisted list is deduplicated by
normalized (lower-cased) title — no two stored books share one — and for
every stored book, no input book with the same normalized title has a
strictly later parseable release date (the kept entry achieves the maximal
release-date key of its duplicate group; unparseable dates sort below every
real date). -/
theorem c8_books_dedup_invariant (existing : List Book) (ig : Bool)
    (asin : String) (books : List Book) :
    ((setSeriesBooks existing ig asin books).map normTitleOf).Nodup
    ∧ ∀ bo ∈ setSeriesBooks existing ig asin books, ∀ bi ∈ books,
        normTitleOf bi = normTitleOf bo →
        dateNoneBotLt (dedupDateKey bo) (dedupDateKey bi) = false := by
  have hperm : (setSeriesBooks existing ig asin books).Perm
      ((deduplicateBooksByTitle books).map (processBook (firstByIdentity existing) ig)) := by
    unfold setSeriesBooks
    exact pySortedBy_perm _ _
  have hmapmap : ((deduplicateBooksByTitle books).map
      (processBook (firstByIdentity existing) ig)).map normTitleOf =
      (deduplicateBooksByTitle books).map normTitleOf := by
    rw [List.map_map]
    exact List.map_congr_left (fun b _ => processBook_normTitle _ _ b)
  constructor
  · have hsub : ((deduplicateBooksByTitle books).map normTitleOf).Sublist (groupTitles books) := by
      unfold deduplicateBooksByTitle
      exact map_filterMap_sublist (keptForTitle books) normTitleOf
        (keptForTitle_normTitle books) (groupTitles books)
    have hnodup1 : ((deduplicateBooksByTitle books).map normTitleOf).Nodup :=
      (groupTitles_nodup books).sublist hsub
    have hpm := hperm.map normTitleOf
    rw [hmapmap] at hpm
    exact (hpm.nodup_iff).mpr hnodup1
  · intro bo hbo bi hbi htitle
    have hbo2 : bo ∈ (deduplicateBooksByTitle books).map
        (processBook (firstByIdentity existing) ig) := hperm.mem_iff.mp hbo
    rcases List.mem_map.mp hbo2 with ⟨bk, hbk, rfl⟩
    rcases mem_dedup_spec books bk hbk with ⟨t, _, hkept⟩
    have hspec := keptForTitle_spec books t bk hkept
    have hbkt : normTitleOf bk = t := keptForTitle_normTitle books t bk hkept
    have hbit : normTitleOf bi = t := by
      rw [htitle, processBook_normTitle, hbkt]
    have hbif : bi ∈ books.filter (fun x => normTitleOf x = t) :=
      List.mem_filter.mpr ⟨hbi, by simp [hbit]⟩
    have hmax := hspec.2 bi hbif
    have hkey : dedupDateKey (processBook (firstByIdentity existing) ig bk) = dedupDateKey bk := by
      unfold dedupDateKey
      rw [processBook_release]
    rw [hkey]
    exact hmax

/-- A duplicate-titled pair: same title up to case, different dates. -/
def dupA : Book := { title := some "Dup", asin := some "A", release_date := some "2020-01-01" }

/-- The newer duplicate. -/
def dupB : Book := { title := some "dup", asin := some "B", release_date := some "2021-05-05" }

/-- The stored form of `dupB` after flag processing. -/
def dupBStored : Book :=
  { title := some "dup", asin := some "B", release_date := some "2021-05-05"
    hidden := some false, ignore_narrator_warning := some false }

/-- C8 witness: with two case-duplicate titles, the stored list keeps only
the 2021 entry, and the 2020 entry's date does not exceed it. -/
theorem c8_witness :
    ((setSeriesBooks [] false "S" [dupA, dupB]).map normTitleOf).Nodup ∧
    dateNoneBotLt (dedupDateKey dupBStored) (dedupDateKey dupA) = false :=
  ⟨(c8_books_dedup_invariant [] false "S" [dupA, dupB]).1,
   (c8_books_dedup_invariant [] false "S" [dupA, dupB]).2 dupBStored (by decide)
     dupA (by decide) (by decide)⟩

/-- C10: `set_series_books` silently drops every book whose title is missing
or empty — every persisted book carries a non-empty title, even when the
dropped book had a valid catalog identifier. -/
theorem c10_untitled_books_dropped (existing : List Book) (ig : Bool)
    (asin : String) (books : List Book) :
    ∀ b ∈ setSeriesBooks existing ig asin books, ∃ s, b.title = some s ∧ s ≠ "" := by
  intro b hb
  have hperm : (setSeriesBooks existing ig asin books).Perm
      ((deduplicateBooksByTitle books).map (processBook (firstByIdentity existing) ig)) := by
    unfold setSeriesBooks
    exact pySortedBy_perm _ _
  have hb2 := hperm.mem_iff.mp hb
  rcases List.mem_map.mp hb2 with ⟨bk, hbk, rfl⟩
  rcases mem_dedup_spec books bk hbk with ⟨t, htg, hkept⟩
  have hbkt : normTitleOf bk = t := keptForTitle_normTitle books t bk hkept
  have htne : t ≠ "" := groupTitles_ne_empty books t htg
  rw [processBook_title]
  cases hbt : bk.title with
  | none =>
      have ht0 : t = "" := by
        rw [← hbkt]
        simp [normTitleOf, hbt]
      exact absurd ht0 htne
  | some s =>
      by_cases hs : s = ""
      · have ht0 : t = "" := by
          rw [← hbkt]
          simp [normTitleOf, hbt, hs]
        exact absurd ht0 htne
      · exact ⟨s, rfl, hs⟩

/-- A book with a catalog identifier but no title. -/
def untitledBook : Book := { asin := some "C" }

/-- A titled companion book. -/
def titledBook : Book := { title := some "Keep", asin := some "K" }

/-- The stored form of `titledBook` after flag processing. -/
def titledBookStored : Book :=
  { title := some "Keep", asin := some "K"
    hidden := some false, ignore_narrator_warning := some false }

/-- C10 witness: the untitled book (despite its valid identifier) is dropped;
the surviving stored book has a non-empty title. -/
theorem c10_witness :
    ∃ s, titledBookStored.title = some s ∧ s ≠ "" :=
  c10_untitled_books_dropped [] false "S" [titledBook, untitledBook]
    titledBookStored (by decide)

theorem finishProbe_result (asin pid : String) (rc : Bool) (old cur : List Book) (f : Bool) :
    (finishProbe asin pid rc old cur f).result =
      Except.ok ⟨cur.length,
        decide (booksRawChanged old cur = true ∨ newAsinsDiff old cur ≠ [] ∨ (old = [] ∧ cur ≠ [])),
        decide (newAsinsDiff old cur ≠ [])⟩ := rfl

theorem finishProbe_books (asin pid : String) (rc : Bool) (old cur : List Book) (f : Bool) :
    (finishProbe asin pid rc old cur f).booksCurrent = cur := rfl

theorem finishProbe_next (asin pid : String) (rc : Bool) (old cur : List Book) (f : Bool) :
    (finishProbe asin pid rc old cur f).nextRefreshSet =
      [asin] ++ (if pid ≠ "" ∧ pid ≠ asin then [pid] else []) := rfl

theorem finishProbe_relChanged (asin pid : String) (rc : Bool) (old cur : List Book) (f : Bool) :
    (finishProbe asin pid rc old cur f).relChanged = rc := rfl

/-- C1 (amended): the `changed` field of a successfully finished probe result
is not the relationship comparison — it reports `True` exactly when a stored
book's raw publication datetime changed, or new book asins were discovered,
or books appeared for the first time; the relationship comparison only gates
whether the expensive expansion runs.  Likewise `new_book` reports the asin
diff and `book_count` the final list length. -/
theorem c1_probe_changed_formula (asin : String) (store : String → Option StoredSeries)
    (pf : Option Product) (ff : Except String (List Book × Option Product × Option String))
    (r : ProbeDone)
    (h : (doRefreshSeriesProbe asin store pf ff).result = Except.ok r) :
    (r.changed = true ↔
      (booksRawChanged (probeOldBooks asin store)
          (doRefreshSeriesProbe asin store pf ff).booksCurrent = true
        ∨ newAsinsDiff (probeOldBooks asin store)
            (doRefreshSeriesProbe asin store pf ff).booksCurrent ≠ []
        ∨ (probeOldBooks asin store = [] ∧
            (doRefreshSeriesProbe asin store pf ff).booksCurrent ≠ [])))
    ∧ (r.newBook = true ↔ newAsinsDiff (probeOldBooks asin store)
          (doRefreshSeriesProbe asin store pf ff).booksCurrent ≠ [])
    ∧ r.bookCount = (doRefreshSeriesProbe asin store pf ff).booksCurrent.length := by
  unfold doRefreshSeriesProbe at h ⊢
  by_cases hcond : probeChanged asin store pf = true ∨ probeOldBooks asin store = []
  · rw [if_pos hcond] at h ⊢
    cases ff with
    | error e => simp at h
    | ok trip =>
        obtain ⟨bks, po, pa⟩ := trip
        rw [finishProbe_result] at h
        simp only [Except.ok.injEq] at h
        subst h
        simp only [finishProbe_books]
        refine ⟨by simp, by simp, by simp⟩
  · rw [if_neg hcond] at h ⊢
    rw [finishProbe_result] at h
    simp only [Except.ok.injEq] at h
    subst h
    simp only [finishProbe_books]
    refine ⟨by simp, by simp, by simp⟩

/-- A stored relationship record. -/
def crelX : CatRel := { asin := .str "X" }

/-- A fresh relationship record differing in identifier. -/
def crelY : CatRel := { asin := .str "Y" }

/-- The single stored book of the probe counterexamples. -/
def probeBook : Book := { title := some "Book", asin := some "A1" }

/-- A stored series whose raw snapshot holds `crelX` and whose book list
holds `probeBook`. -/
def probeDoc : StoredSeries :=
  { raw := some { relationships := some [crelX] }, books := some [probeBook] }

/-- The store holding only series `S`. -/
def probeStore : String → Option StoredSeries :=
  fun s => if s = "S" then some probeDoc else none

/-- A freshly fetched parent product whose relationships differ from the
stored snapshot. -/
def freshParent : Product := { relationships := some [crelY] }

/-- C1 counterexample: the stored and fresh relationship lists differ
(`relationshipsEqual` is `False`, and the probe's own comparison fired,
triggering the full fetch), yet the full fetch returns the same book, so the
finished job reports `changed = False` — contradicting
`changed = NOT relationshipsEqual(stored, fresh)`. -/
theorem c1_counterexample :
    (doRefreshSeriesProbe "S" probeStore (some freshParent)
      (Except.ok ([probeBook], some freshParent, some "S"))).result =
        Except.ok ⟨1, false, false⟩
    ∧ (doRefreshSeriesProbe "S" probeStore (some freshParent)
        (Except.ok ([probeBook], some freshParent, some "S"))).relChanged = true
    ∧ relationshipsEqual (some [crelX]) (some [crelY]) = false := by
  refine ⟨rfl, rfl, by decide⟩

/-- C1 witness: the amended formula at the counterexample's input — the
result fields match the raw-diff/new-asin formula. -/
theorem c1_witness :
    ((⟨1, false, false⟩ : ProbeDone).changed = true ↔
      (booksRawChanged (probeOldBooks "S" probeStore)
          (doRefreshSeriesProbe "S" probeStore (some freshParent)
            (Except.ok ([probeBook], some freshParent, some "S"))).booksCurrent = true
        ∨ newAsinsDiff (probeOldBooks "S" probeStore)
            (doRefreshSeriesProbe "S" probeStore (some freshParent)
              (Except.ok ([probeBook], some freshParent, some "S"))).booksCurrent ≠ []
        ∨ (probeOldBooks "S" probeStore = [] ∧
            (doRefreshSeriesProbe "S" probeStore (some freshParent)
              (Except.ok ([probeBook], some freshParent, some "S"))).booksCurrent ≠ []))) :=
  (c1_probe_changed_formula "S" probeStore (some freshParent)
    (Except.ok ([probeBook], some freshParent, some "S")) ⟨1, false, false⟩ rfl).1

/-- C2 (amended): when the parent-product fetch is unresolvable (the client
raised or returned no product, both folded to `None` by `_load_product`), the
probe treats it as "no relationship change": if the series already has stored
books the job finishes `done` and `nextRefreshAt` IS advanced one full cycle
for the probed asin; the job only finishes in `error` — leaving the schedule
untouched — when the series has no stored books and the full expansion fetch
itself raises. -/
theorem c2_unresolvable_probe (asin : String) (store : String → Option StoredSeries)
    (ff : Except String (List Book × Option Product × Option String)) :
    (doRefreshSeriesProbe asin store none ff).relChanged = false
    ∧ (probeOldBooks asin store ≠ [] →
        (∃ d, (doRefreshSeriesProbe asin store none ff).result = Except.ok d)
        ∧ asin ∈ (doRefreshSeriesProbe asin store none ff).nextRefreshSet)
    ∧ (∀ e, probeOldBooks asin store = [] → ff = Except.error e →
        (doRefreshSeriesProbe asin store none ff).result = Except.error e
        ∧ (doRefreshSeriesProbe asin store none ff).nextRefreshSet = [])
    ∧ (∀ bks po pa, probeOldBooks asin store = [] → ff = Except.ok (bks, po, pa) →
        (∃ d, (doRefreshSeriesProbe asin store none ff).result = Except.ok d)
        ∧ asin ∈ (doRefreshSeriesProbe asin store none ff).nextRefreshSet) := by
  have hch : probeChanged asin store none = false := rfl
  have hpa : probeParentAsin asin none = none := rfl
  refine ⟨?_, ?_, ?_, ?_⟩
  · unfold doRefreshSeriesProbe
    by_cases hcond : probeChanged asin store none = true ∨ probeOldBooks asin store = []
    · rw [if_pos hcond]
      cases ff with
      | error e => rfl
      | ok trip =>
          obtain ⟨bks, po, pa⟩ := trip
          rw [finishProbe_relChanged, hch]
    · rw [if_neg hcond]
      rw [finishProbe_relChanged, hch]
  · intro hne
    have hcond : ¬ (probeChanged asin store none = true ∨ probeOldBooks asin store = []) := by
      rw [hch]
      simp [hne]
    unfold doRefreshSeriesProbe
    rw [if_neg hcond]
    refine ⟨⟨_, finishProbe_result _ _ _ _ _ _⟩, ?_⟩
    rw [finishProbe_next]
    exact List.mem_append.mpr (Or.inl (List.mem_singleton.mpr rfl))
  · intro e hemp hff
    subst hff
    have hcond : probeChanged asin store none = true ∨ probeOldBooks asin store = [] :=
      Or.inr hemp
    unfold doRefreshSeriesProbe
    rw [if_pos hcond]
    exact ⟨rfl, rfl⟩
  · intro bks po pa hemp hff
    subst hff
    have hcond : probeChanged asin store none = true ∨ probeOldBooks asin store = [] :=
      Or.inr hemp
    unfold doRefreshSeriesProbe
    rw [if_pos hcond]
    refine ⟨⟨_, finishProbe_result _ _ _ _ _ _⟩, ?_⟩
    rw [finishProbe_next]
    exact List.mem_append.mpr (Or.inl (List.mem_singleton.mpr rfl))

/-- C2 counterexample: the parent fetch is unresolvable (`None`) and the
series has a stored book; the claim demands an `error` job with
`nextRefreshAt` untouched, but the probe finishes `done` (book_count 1,
changed False) and advances `nextRefreshAt` for the probed asin. -/
theorem c2_counterexample :
    (doRefreshSeriesProbe "S" probeStore none (Except.error "boom")).result =
      Except.ok ⟨1, false, false⟩
    ∧ (doRefreshSeriesProbe "S" probeStore none
        (Except.error "boom")).nextRefreshSet = ["S"] := by
  refine ⟨rfl, rfl⟩

/-- C2 witness: the amended theorem at a concrete input with stored books —
the job finishes `done` and the probed asin's schedule is advanced. -/
theorem c2_witness :
    (∃ d, (doRefreshSeriesProbe "S" probeStore none (Except.error "x")).result = Except.ok d)
    ∧ "S" ∈ (doRefreshSeriesProbe "S" probeStore none (Except.error "x")).nextRefreshSet :=
  (c2_unresolvable_probe "S" probeStore (Except.error "x")).2.1 (by decide)
